import Mathlib

/-!
# VoiceClone-Studio: verification of the training orchestration pipeline
# and the reference-audio selection/scoring engine

Shallow embedding of the relevant code of the repository:

* `audio_generator_sovits.py` — reference scoring and selection
  (`_calculate_audio_quality_score`, `_select_best_reference_audio`,
  `_select_auxiliary_references`), upload processing
  (`process_reference_audio`), the speaker-level training entry point
  (`train_speaker`) and generation dispatch (`generate_speech`,
  `_generate_placeholder`).
* `gpt_sovits_trainer.py` — the orchestration pipeline
  (`prepare_training_data`, `run_data_preprocessing`, `train_stage1_gpt`,
  `train_stage2_sovits`, `train_speaker_complete`).

Python floats (durations, scores) are modelled as rationals; Python str as
`String`; Python dicts keyed by speaker name as association lists; the
filesystem and subprocess outcomes appear as explicit parameters describing
the snapshots the code observed (directory listings, row counts, exit
status), exactly where the source reads them.
-/

/-- One entry of `speakers_data[name]["audio_files"]` as written by
`process_reference_audio`: storage path, original upload path, duration in
seconds and sample rate in Hz. -/
structure AudioSample where
  path : String
  original_path : String
  duration : ℚ
  sample_rate : ℤ
deriving Repr, DecidableEq

/-- The duration band bonus inside `_calculate_audio_quality_score`
(`audio_generator_sovits.py` lines 358-364): +30 for 10–20 s, else +20 for
8–25 s, else +10 for 5–30 s, else +0. -/
def durationScore (d : ℚ) : ℚ :=
  if 10 ≤ d ∧ d ≤ 20 then 30
  else if 8 ≤ d ∧ d ≤ 25 then 20
  else if 5 ≤ d ∧ d ≤ 30 then 10
  else 0

/-- The sample-rate bonus inside `_calculate_audio_quality_score`
(lines 366-371): +20 for ≥ 32000 Hz, else +10 for ≥ 22050 Hz, else +0. -/
def sampleRateScore (sr : ℤ) : ℚ :=
  if 32000 ≤ sr then 20
  else if 22050 ≤ sr then 10
  else 0

/-- Python builtin `min` on two numbers (kernel-computable form). -/
def pymin (a b : ℚ) : ℚ := if a ≤ b then a else b

/-- Python builtin `max` on two numbers (kernel-computable form). -/
def pymax (a b : ℚ) : ℚ := if b ≤ a then a else b

theorem pymin_eq_min (a b : ℚ) : pymin a b = min a b := by
  unfold pymin
  split <;> rename_i h
  · exact (min_eq_left h).symm
  · exact (min_eq_right (le_of_not_le h)).symm

theorem pymax_eq_max (a b : ℚ) : pymax a b = max a b := by
  unfold pymax
  split <;> rename_i h
  · exact (max_eq_left h).symm
  · exact (max_eq_right (le_of_not_le h)).symm

/-- `_calculate_audio_quality_score`: base 50, plus the duration band bonus,
plus the sample-rate bonus, capped by `min(score, 100.0)`. -/
def calculate_audio_quality_score (a : AudioSample) : ℚ :=
  pymin (50 + durationScore a.duration + sampleRateScore a.sample_rate) 100

/-- The eligibility filter of `_select_best_reference_audio` and
`_select_auxiliary_references`: duration in the closed interval [3, 10]. -/
def validAudios (audio_files : List AudioSample) : List AudioSample :=
  audio_files.filter (fun a => decide (3 ≤ a.duration) && decide (a.duration ≤ 10))

/-- Each eligible sample paired with its quality score, in upload order —
the `scored_audios` list the Python code builds before sorting. -/
def scoredList (l : List AudioSample) : List (ℚ × AudioSample) :=
  l.map (fun a => (calculate_audio_quality_score a, a))

/-- Stable insertion used to model Python `list.sort(reverse=True, key=...)`:
`x` (the earlier element) passes over every element strictly greater than it
and lands in front of the first element that is ≤ it, so equal elements keep
their original relative order. -/
def insertGt {α : Type} (gt : α → α → Bool) (x : α) : List α → List α
  | [] => [x]
  | y :: ys => if gt y x then y :: insertGt gt x ys else x :: y :: ys

/-- Stable descending insertion sort; with `gt a b = (key b < key a)` this has
exactly the specification of CPython `list.sort(reverse=True, key=key)`:
descending by key, stable (equal keys keep list order). -/
def sortGtBy {α : Type} (gt : α → α → Bool) : List α → List α
  | [] => []
  | x :: xs => insertGt gt x (sortGtBy gt xs)

/-- `scored_audios.sort(reverse=True, key=lambda x: x[0])` on score/sample
pairs. -/
def sortScoredDesc (s : List (ℚ × AudioSample)) : List (ℚ × AudioSample) :=
  sortGtBy (fun a b => decide (b.1 < a.1)) s

/-- The two distinct failure exceptions raised by
`_select_best_reference_audio`: "没有可用的音频文件" for an empty input list
(line 584), and the 3–10 s requirement failure (lines 594-600), whose message
lists the duration of every input candidate. -/
inductive SelectError where
  | noAudioFiles : SelectError
  | noEligible (durations : List ℚ) : SelectError
deriving Repr, DecidableEq

/-- `_select_best_reference_audio` (lines 581-614): raise on empty input;
filter to 3–10 s; raise listing all candidate durations if nothing survives;
otherwise score, sort descending (stable) and return the top sample. -/
def select_best_reference_audio (audio_files : List AudioSample) :
    Except SelectError AudioSample :=
  if audio_files.isEmpty then .error .noAudioFiles
  else if (validAudios audio_files).isEmpty then
    .error (.noEligible (audio_files.map (fun a => a.duration)))
  else
    match (sortScoredDesc (scoredList (validAudios audio_files))).head? with
    | some best => .ok best.2
    | none => .error .noAudioFiles

/-- `_select_auxiliary_references` (lines 616-643): empty result for ≤ 1
input or ≤ 1 eligible sample; otherwise the same scored descending sort,
returning ranks 1..min(count, len-1) (the slice `scored_audios[1:aux_count+1]`). -/
def select_auxiliary_references (audio_files : List AudioSample) (count : ℕ) :
    List AudioSample :=
  if audio_files.length ≤ 1 then []
  else
    let valid := validAudios audio_files
    if valid.length ≤ 1 then []
    else
      let sorted := sortScoredDesc (scoredList valid)
      ((sorted.drop 1).take (min count (sorted.length - 1))).map (fun p => p.2)

/-- `process_reference_audio` (lines 123-160), the part that determines the
stored sample metadata: the audio is loaded at its native rate; if that rate
is not 32000 Hz it is resampled to 32000 Hz, and the stored `sample_rate` is
the final rate. Duration is computed before resampling and stored as-is. -/
def process_reference_audio (destPath origPath : String) (origSr : ℤ) (duration : ℚ) :
    AudioSample :=
  let sr : ℤ := if origSr ≠ 32000 then 32000 else origSr
  { path := destPath, original_path := origPath, duration := duration, sample_rate := sr }

example : calculate_audio_quality_score ⟨"p", "o", 9, 32000⟩ = 90 := by
  with_unfolding_all rfl
example : calculate_audio_quality_score ⟨"p", "o", 4, 32000⟩ = 70 := by
  with_unfolding_all rfl
example : select_best_reference_audio [] = .error .noAudioFiles := rfl
example :
    select_best_reference_audio [⟨"a", "a", 12, 32000⟩, ⟨"b", "b", 2, 32000⟩]
      = .error (.noEligible [12, 2]) := rfl
example :
    select_best_reference_audio [⟨"a", "a", 4, 32000⟩, ⟨"b", "b", 9, 32000⟩, ⟨"c", "c", 9, 32000⟩]
      = .ok ⟨"b", "b", 9, 32000⟩ := by with_unfolding_all rfl
example :
    select_auxiliary_references
      [⟨"a", "a", 4, 32000⟩, ⟨"b", "b", 9, 32000⟩, ⟨"c", "c", 9, 32000⟩] 3
      = [⟨"c", "c", 9, 32000⟩, ⟨"a", "a", 4, 32000⟩] := by with_unfolding_all rfl

/-! ## Generic lemmas about the stable descending sort -/

theorem insertGt_perm {α : Type} (gt : α → α → Bool) (x : α) (l : List α) :
    (insertGt gt x l).Perm (x :: l) := by
  induction l with
  | nil => simp [insertGt]
  | cons y ys ih =>
    unfold insertGt
    split
    · exact (ih.cons y).trans (List.Perm.swap x y ys)
    · exact List.Perm.refl _

theorem sortGtBy_perm {α : Type} (gt : α → α → Bool) (l : List α) :
    (sortGtBy gt l).Perm l := by
  induction l with
  | nil => simp [sortGtBy]
  | cons x xs ih =>
    exact (insertGt_perm gt x (sortGtBy gt xs)).trans (ih.cons x)

theorem mem_of_mem_sortGtBy {α : Type} {gt : α → α → Bool} {l : List α} {x : α}
    (h : x ∈ sortGtBy gt l) : x ∈ l :=
  (sortGtBy_perm gt l).mem_iff.mp h

/-- `insertGt` passes over exactly an initial run of elements that compare
strictly greater than `x`, and inserts `x` in front of the rest. -/
theorem insertGt_decomp {α : Type} (gt : α → α → Bool) (x : α) (l : List α) :
    ∃ s₁ s₂, insertGt gt x l = s₁ ++ x :: s₂ ∧ l = s₁ ++ s₂ ∧
      ∀ y ∈ s₁, gt y x = true := by
  induction l with
  | nil => exact ⟨[], [], rfl, rfl, by simp⟩
  | cons y ys ih =>
    unfold insertGt
    split <;> rename_i hgt
    · obtain ⟨s₁, s₂, h1, h2, h3⟩ := ih
      refine ⟨y :: s₁, s₂, by simp [h1], by simp [h2], ?_⟩
      intro z hz
      rcases List.mem_cons.mp hz with hz | hz
      · exact hz ▸ hgt
      · exact h3 z hz
    · exact ⟨[], y :: ys, rfl, rfl, by simp⟩

/-- Membership through `insertGt`. -/
theorem mem_insertGt {α : Type} {gt : α → α → Bool} {x z : α} {l : List α}
    (h : z ∈ insertGt gt x l) : z = x ∨ z ∈ l := by
  have := (insertGt_perm gt x l).mem_iff.mp h
  simpa using this

/-- With the comparison `gt a b = (key b < key a)` the sorted output is
pairwise descending in the key. -/
theorem pairwise_insertGt {α : Type} (key : α → ℚ) (x : α) (l : List α)
    (h : List.Pairwise (fun a b => key b ≤ key a) l) :
    List.Pairwise (fun a b => key b ≤ key a)
      (insertGt (fun a b => decide (key b < key a)) x l) := by
  induction l with
  | nil => simp [insertGt]
  | cons y ys ih =>
    unfold insertGt
    rcases List.pairwise_cons.mp h with ⟨hy, hys⟩
    split <;> rename_i hgt
    · refine List.pairwise_cons.mpr ⟨?_, ih hys⟩
      intro z hz
      rcases mem_insertGt hz with hz | hz
      · subst hz
        exact le_of_lt (of_decide_eq_true hgt)
      · exact hy z hz
    · have hxy : key y ≤ key x := le_of_not_lt (of_decide_eq_false (by simpa using hgt))
      refine List.pairwise_cons.mpr ⟨?_, h⟩
      intro z hz
      rcases List.mem_cons.mp hz with hz | hz
      · exact hz ▸ hxy
      · exact le_trans (hy z hz) hxy

theorem pairwise_sortGtBy {α : Type} (key : α → ℚ) (l : List α) :
    List.Pairwise (fun a b => key b ≤ key a)
      (sortGtBy (fun a b => decide (key b < key a)) l) := by
  induction l with
  | nil => simp [sortGtBy]
  | cons x xs ih => exact pairwise_insertGt key x _ ih

/-- Stability, phrased through `filter`: for each key value `k`, the sorted
list restricted to elements of key `k` is the input list restricted to key
`k`, in the same order — this is exactly CPython's sort-stability guarantee
for `reverse=True`. -/
theorem filter_insertGt {α : Type} (key : α → ℚ) (x : α) (l : List α) (k : ℚ) :
    (insertGt (fun a b => decide (key b < key a)) x l).filter (fun p => decide (key p = k))
      = if key x = k then x :: l.filter (fun p => decide (key p = k))
        else l.filter (fun p => decide (key p = k)) := by
  induction l with
  | nil =>
    by_cases hxk : key x = k <;> simp [insertGt, List.filter_cons, hxk]
  | cons y ys ih =>
    unfold insertGt
    split <;> rename_i hgt
    · have hlt : key x < key y := of_decide_eq_true hgt
      by_cases hxk : key x = k
      · have hyk : ¬ key y = k := by
          intro hy
          rw [hxk, hy] at hlt
          exact lt_irrefl k hlt
        simp [List.filter_cons, hxk, hyk, ih]
      · by_cases hyk : key y = k <;> simp [List.filter_cons, hxk, hyk, ih]
    · by_cases hxk : key x = k <;> by_cases hyk : key y = k <;>
        simp [List.filter_cons, hxk, hyk]

theorem filter_sortGtBy {α : Type} (key : α → ℚ) (l : List α) (k : ℚ) :
    (sortGtBy (fun a b => decide (key b < key a)) l).filter (fun p => decide (key p = k))
      = l.filter (fun p => decide (key p = k)) := by
  induction l with
  | nil => simp [sortGtBy]
  | cons x xs ih =>
    unfold sortGtBy
    rw [filter_insertGt, ih, List.filter_cons]
    split <;> simp_all

/-- The head of the stable descending sort is the first element of the input
attaining the maximal key: there is a decomposition `l = pre ++ b :: post`
with every element of `pre` strictly below `b`'s key, `b`'s key maximal over
all of `l`, and `b` at the head of the sorted output. -/
theorem sortGtBy_head_firstMax {α : Type} (key : α → ℚ) (l : List α) (hne : l ≠ []) :
    ∃ pre b post, l = pre ++ b :: post ∧ (∀ p ∈ pre, key p < key b) ∧
      (∀ p ∈ l, key p ≤ key b) ∧
      (sortGtBy (fun a b => decide (key b < key a)) l).head? = some b := by
  induction l with
  | nil => exact absurd rfl hne
  | cons x xs ih =>
    rcases List.eq_nil_or_concat xs with hxs | _
    · subst hxs
      refine ⟨[], x, [], rfl, by simp, by simp, rfl⟩
    · have hxs : xs ≠ [] := by
        rename_i h
        obtain ⟨l', a, rfl⟩ := h
        simp
      obtain ⟨pre, b, post, hdec, hpre, hmax, hhead⟩ := ih hxs
      obtain ⟨rest, hrest⟩ : ∃ rest,
          sortGtBy (fun a b => decide (key b < key a)) xs = b :: rest := by
        cases hsort : sortGtBy (fun a b => decide (key b < key a)) xs with
        | nil => simp [hsort] at hhead
        | cons c cs =>
          rw [hsort] at hhead
          simp only [List.head?_cons, Option.some.injEq] at hhead
          exact ⟨cs, by rw [hhead]⟩
      show ∃ pre b post, _
      rw [sortGtBy, hrest]
      unfold insertGt
      split <;> rename_i hgt
      · have hxb : key x < key b := of_decide_eq_true hgt
        refine ⟨x :: pre, b, post, by simp [hdec], ?_, ?_, rfl⟩
        · intro p hp
          rcases List.mem_cons.mp hp with hp | hp
          · exact hp ▸ hxb
          · exact hpre p hp
        · intro p hp
          rcases List.mem_cons.mp hp with hp | hp
          · exact hp ▸ le_of_lt hxb
          · exact hmax p hp
      · have hbx : key b ≤ key x := le_of_not_lt (of_decide_eq_false (by simpa using hgt))
        refine ⟨[], x, xs, rfl, by simp, ?_, rfl⟩
        intro p hp
        rcases List.mem_cons.mp hp with hp | hp
        · exact hp ▸ le_refl _
        · exact le_trans (hmax p hp) hbx

/-! ## Facts about the scoring bands -/

theorem durationScore_nonneg (d : ℚ) : 0 ≤ durationScore d := by
  unfold durationScore
  split_ifs <;> norm_num

theorem durationScore_le_30 (d : ℚ) : durationScore d ≤ 30 := by
  unfold durationScore
  split_ifs <;> norm_num

theorem sampleRateScore_nonneg (sr : ℤ) : 0 ≤ sampleRateScore sr := by
  unfold sampleRateScore
  split_ifs <;> norm_num

/-- Inside the eligibility window [3, 10] the duration bands collapse to a
staircase that only depends on the lower cut-offs 5, 8, 10. -/
theorem durationScore_in_window (d : ℚ) (hd10 : d ≤ 10) :
    durationScore d = if 10 ≤ d then 30 else if 8 ≤ d then 20
      else if 5 ≤ d then 10 else 0 := by
  unfold durationScore
  by_cases hA : 10 ≤ d
  · rw [if_pos ⟨hA, by linarith⟩, if_pos hA]
  · rw [if_neg (fun h => hA h.1), if_neg hA]
    by_cases hB : 8 ≤ d
    · rw [if_pos ⟨hB, by linarith⟩, if_pos hB]
    · rw [if_neg (fun h => hB h.1), if_neg hB]
      by_cases hC : 5 ≤ d
      · rw [if_pos ⟨hC, by linarith⟩, if_pos hC]
      · rw [if_neg (fun h => hC h.1), if_neg hC]

/-- On the already-filtered [3, 10] set the duration bonus is monotone in the
duration: the closer to the window's effective sweet spot (its upper edge),
the higher the bonus. -/
theorem durationScore_mono_in_window (d₁ d₂ : ℚ) (h3 : 3 ≤ d₁) (h12 : d₁ ≤ d₂)
    (h10 : d₂ ≤ 10) : durationScore d₁ ≤ durationScore d₂ := by
  rw [durationScore_in_window d₁ (le_trans h12 h10),
    durationScore_in_window d₂ h10]
  by_cases hA1 : 10 ≤ d₁
  · rw [if_pos hA1, if_pos (le_trans hA1 h12)]
  · rw [if_neg hA1]
    by_cases hA2 : 10 ≤ d₂
    · rw [if_pos hA2]
      split_ifs <;> norm_num
    · rw [if_neg hA2]
      by_cases hB1 : 8 ≤ d₁
      · rw [if_pos hB1, if_pos (le_trans hB1 h12)]
      · rw [if_neg hB1]
        by_cases hB2 : 8 ≤ d₂
        · rw [if_pos hB2]
          split_ifs <;> norm_num
        · rw [if_neg hB2]
          by_cases hC1 : 5 ≤ d₁
          · rw [if_pos hC1, if_pos (le_trans hC1 h12)]
          · rw [if_neg hC1]
            split_ifs <;> norm_num

/-- For a sample stored at 32000 Hz the clamp at 100 is never active and the
score is exactly 70 plus the duration bonus. -/
theorem score_at_32000 (s : AudioSample) (h : s.sample_rate = 32000) :
    calculate_audio_quality_score s = 70 + durationScore s.duration := by
  unfold calculate_audio_quality_score sampleRateScore
  rw [h, if_pos (le_refl (32000 : ℤ)), pymin_eq_min,
    min_eq_left (by linarith [durationScore_le_30 s.duration])]
  ring

theorem sortScoredDesc_length (s : List (ℚ × AudioSample)) :
    (sortScoredDesc s).length = s.length :=
  (sortGtBy_perm _ s).length_eq

theorem validAudios_length_le (l : List AudioSample) :
    (validAudios l).length ≤ l.length :=
  List.length_filter_le _ l

/-! ## C6 — `NoEligibleReference` when nothing lies in [3, 10] -/

/-- C6 counterexample: on the empty sample list — a list in which (vacuously)
no sample's duration lies in [3, 10] — `_select_best_reference_audio` raises
the distinct "没有可用的音频文件" error, not the `NoEligibleReference` error
that reports the candidate durations. -/
theorem C6_counterexample_empty_list :
    select_best_reference_audio [] = .error .noAudioFiles ∧
    (Except.error SelectError.noAudioFiles : Except SelectError AudioSample)
      ≠ .error (.noEligible (([] : List AudioSample).map (fun a => a.duration))) := by
  refine ⟨rfl, ?_⟩
  intro h
  injection h with h
  exact SelectError.noConfusion h

/-- C6 (amended): for every NON-EMPTY sample list in which no duration lies in
the closed interval [3, 10], selection fails with the no-eligible-reference
error whose payload lists the duration of every input candidate. -/
theorem C6_no_eligible_reference (l : List AudioSample) (hne : l ≠ [])
    (hall : ∀ a ∈ l, ¬ (3 ≤ a.duration ∧ a.duration ≤ 10)) :
    select_best_reference_audio l
      = .error (.noEligible (l.map (fun a => a.duration))) := by
  have h1 : l.isEmpty = false := by
    cases l with
    | nil => exact absurd rfl hne
    | cons a as => rfl
  have hv : validAudios l = [] := by
    refine List.filter_eq_nil_iff.mpr ?_
    intro a ha
    simp only [Bool.and_eq_true, decide_eq_true_eq, not_and]
    intro h3 h10
    exact hall a ha ⟨h3, h10⟩
  simp [select_best_reference_audio, h1, hv]

/-- C6 witness: a concrete one-element list whose only duration (12 s) is
outside the window. -/
theorem C6_witness :
    ([⟨"a", "a", 12, 32000⟩] : List AudioSample) ≠ [] ∧
    (∀ a ∈ ([⟨"a", "a", 12, 32000⟩] : List AudioSample),
      ¬ (3 ≤ a.duration ∧ a.duration ≤ 10)) ∧
    select_best_reference_audio [⟨"a", "a", 12, 32000⟩]
      = .error (.noEligible [12]) :=
  ⟨by decide, by decide,
    C6_no_eligible_reference [⟨"a", "a", 12, 32000⟩] (by decide) (by decide)⟩

/-! ## C7 — deterministic stable ranking -/

/-- C7: reference ranking is a pure function; the sorted list is descending by
score, stable (for every score value the equal-score samples appear in their
original upload order, so the earlier-uploaded sample wins ties), a
permutation of the scored eligible samples, the primary reference is the
earliest-uploaded eligible sample of maximal score, and the auxiliary
references are exactly ranks 1..min(count, len-1) of the very same ordering. -/
theorem C7_deterministic_stable_ranking (l : List AudioSample) (count : ℕ)
    (h1 : l ≠ []) (h2 : validAudios l ≠ []) :
    List.Pairwise (fun a b => b.1 ≤ a.1) (sortScoredDesc (scoredList (validAudios l))) ∧
    (∀ k : ℚ, (sortScoredDesc (scoredList (validAudios l))).filter
          (fun p => decide (p.1 = k))
        = (scoredList (validAudios l)).filter (fun p => decide (p.1 = k))) ∧
    (sortScoredDesc (scoredList (validAudios l))).Perm (scoredList (validAudios l)) ∧
    (∃ pre b post, scoredList (validAudios l) = pre ++ b :: post ∧
      (∀ p ∈ pre, p.1 < b.1) ∧
      (∀ p ∈ scoredList (validAudios l), p.1 ≤ b.1) ∧
      select_best_reference_audio l = .ok b.2) ∧
    select_auxiliary_references l count
      = (((sortScoredDesc (scoredList (validAudios l))).drop 1).take
          (min count ((sortScoredDesc (scoredList (validAudios l))).length - 1))).map
            (fun p => p.2) := by
  have h1' : l.isEmpty = false := by
    cases l with
    | nil => exact absurd rfl h1
    | cons a as => rfl
  have h2' : (validAudios l).isEmpty = false := by
    cases hv : validAudios l with
    | nil => exact absurd hv h2
    | cons a as => rfl
  refine ⟨pairwise_sortGtBy Prod.fst _, fun k => filter_sortGtBy Prod.fst _ k,
    sortGtBy_perm _ _, ?_, ?_⟩
  · have hsne : scoredList (validAudios l) ≠ [] := by
      cases hv : validAudios l with
      | nil => exact absurd hv h2
      | cons a as => simp [scoredList, hv]
    obtain ⟨pre, b, post, hdec, hpre, hmax, hhead⟩ :=
      sortGtBy_head_firstMax Prod.fst (scoredList (validAudios l)) hsne
    refine ⟨pre, b, post, hdec, hpre, hmax, ?_⟩
    simp [select_best_reference_audio, h1', h2', sortScoredDesc, hhead]
  · unfold select_auxiliary_references
    by_cases hl : l.length ≤ 1
    · have hv1 : (validAudios l).length ≤ 1 := le_trans (validAudios_length_le l) hl
      have hs1 : (sortScoredDesc (scoredList (validAudios l))).length ≤ 1 := by
        rw [sortScoredDesc_length]
        simpa [scoredList] using hv1
      rw [if_pos hl, List.drop_eq_nil_of_le hs1]
      simp
    · rw [if_neg hl]
      by_cases hv1 : (validAudios l).length ≤ 1
      · have hs1 : (sortScoredDesc (scoredList (validAudios l))).length ≤ 1 := by
          rw [sortScoredDesc_length]
          simpa [scoredList] using hv1
        rw [if_pos hv1, List.drop_eq_nil_of_le hs1]
        simp
      · rw [if_neg hv1]

/-- Concrete sample list for the C7 witness: a low-scoring 4 s sample followed
by two equal-scoring 9 s samples ("b" uploaded before "c"). -/
def c7demo : List AudioSample :=
  [⟨"a", "a", 4, 32000⟩, ⟨"b", "b", 9, 32000⟩, ⟨"c", "c", 9, 32000⟩]

/-- C7 witness: the ranking theorem applied at `c7demo` with count 3. -/
theorem C7_witness :
    c7demo ≠ [] ∧ validAudios c7demo ≠ [] ∧
    (List.Pairwise (fun a b => b.1 ≤ a.1)
        (sortScoredDesc (scoredList (validAudios c7demo))) ∧
      (∀ k : ℚ, (sortScoredDesc (scoredList (validAudios c7demo))).filter
            (fun p => decide (p.1 = k))
          = (scoredList (validAudios c7demo)).filter (fun p => decide (p.1 = k))) ∧
      (sortScoredDesc (scoredList (validAudios c7demo))).Perm
        (scoredList (validAudios c7demo)) ∧
      (∃ pre b post, scoredList (validAudios c7demo) = pre ++ b :: post ∧
        (∀ p ∈ pre, p.1 < b.1) ∧
        (∀ p ∈ scoredList (validAudios c7demo), p.1 ≤ b.1) ∧
        select_best_reference_audio c7demo = .ok b.2) ∧
      select_auxiliary_references c7demo 3
        = (((sortScoredDesc (scoredList (validAudios c7demo))).drop 1).take
            (min 3 ((sortScoredDesc (scoredList (validAudios c7demo))).length - 1))).map
              (fun p => p.2)) :=
  ⟨by decide, by decide,
    C7_deterministic_stable_ranking c7demo 3 (by decide) (by decide)⟩

/-! ## C8 — quality score formula on the filtered window -/

/-- C8: for an eligible sample (duration in [3, 10]) the quality score is the
base 50 plus a duration term monotone towards the window's sweet spot, plus
the +20 / +10 / +0 sample-rate term, and the total agrees with clamping to
[0, 100] (the code's `min(score, 100)` coincides with the clamp because the
summands are nonnegative). -/
theorem C8_quality_score_formula (a : AudioSample)
    (h3 : 3 ≤ a.duration) (h10 : a.duration ≤ 10) :
    calculate_audio_quality_score a
      = max 0 (min (50 + durationScore a.duration + sampleRateScore a.sample_rate) 100) ∧
    (32000 ≤ a.sample_rate → sampleRateScore a.sample_rate = 20) ∧
    (a.sample_rate < 32000 → 22050 ≤ a.sample_rate → sampleRateScore a.sample_rate = 10) ∧
    (a.sample_rate < 22050 → sampleRateScore a.sample_rate = 0) ∧
    (∀ d₁ d₂ : ℚ, 3 ≤ d₁ → d₁ ≤ d₂ → d₂ ≤ 10 → durationScore d₁ ≤ durationScore d₂) ∧
    0 ≤ calculate_audio_quality_score a ∧ calculate_audio_quality_score a ≤ 100 := by
  have hnn : (0 : ℚ) ≤ 50 + durationScore a.duration + sampleRateScore a.sample_rate := by
    have := durationScore_nonneg a.duration
    have := sampleRateScore_nonneg a.sample_rate
    linarith
  have hmin : (0 : ℚ)
      ≤ min (50 + durationScore a.duration + sampleRateScore a.sample_rate) 100 :=
    le_min hnn (by norm_num)
  refine ⟨?_, ?_, ?_, ?_, durationScore_mono_in_window, ?_, ?_⟩
  · rw [calculate_audio_quality_score, pymin_eq_min, max_eq_right hmin]
  · intro h
    rw [sampleRateScore, if_pos h]
  · intro hlt h
    rw [sampleRateScore, if_neg (by omega), if_pos h]
  · intro hlt
    rw [sampleRateScore, if_neg (by omega), if_neg (by omega)]
  · rw [calculate_audio_quality_score, pymin_eq_min]
    exact hmin
  · rw [calculate_audio_quality_score, pymin_eq_min]
    exact min_le_right _ _

/-- Concrete eligible sample for the C8 witness: 9 s at 32000 Hz. -/
def c8demo : AudioSample := ⟨"p", "o", 9, 32000⟩

/-- C8 witness: the score-formula theorem applied at `c8demo`. -/
theorem C8_witness :
    3 ≤ c8demo.duration ∧ c8demo.duration ≤ 10 ∧
    (calculate_audio_quality_score c8demo
        = max 0 (min (50 + durationScore c8demo.duration
            + sampleRateScore c8demo.sample_rate) 100) ∧
      (32000 ≤ c8demo.sample_rate → sampleRateScore c8demo.sample_rate = 20) ∧
      (c8demo.sample_rate < 32000 → 22050 ≤ c8demo.sample_rate →
        sampleRateScore c8demo.sample_rate = 10) ∧
      (c8demo.sample_rate < 22050 → sampleRateScore c8demo.sample_rate = 0) ∧
      (∀ d₁ d₂ : ℚ, 3 ≤ d₁ → d₁ ≤ d₂ → d₂ ≤ 10 →
        durationScore d₁ ≤ durationScore d₂) ∧
      0 ≤ calculate_audio_quality_score c8demo ∧
      calculate_audio_quality_score c8demo ≤ 100) :=
  ⟨by decide, by decide, C8_quality_score_formula c8demo (by decide) (by decide)⟩

/-! ## C10 — every stored sample is resampled to 32000 Hz -/

/-- C10: `process_reference_audio` stores `sample_rate = 32000` for every
upload (any other native rate is resampled); hence every stored sample gets
the maximal +20 sample-rate bonus, the clamp never bites, and comparison of
the scores of two stored samples is decided by the duration term alone. -/
theorem C10_stored_rate_32000 (destPath origPath : String) (origSr : ℤ) (d : ℚ)
    (s₁ s₂ : AudioSample) (h₁ : s₁.sample_rate = 32000) (h₂ : s₂.sample_rate = 32000) :
    (process_reference_audio destPath origPath origSr d).sample_rate = 32000 ∧
    sampleRateScore (process_reference_audio destPath origPath origSr d).sample_rate = 20 ∧
    calculate_audio_quality_score s₁ = 70 + durationScore s₁.duration ∧
    (calculate_audio_quality_score s₁ ≤ calculate_audio_quality_score s₂
      ↔ durationScore s₁.duration ≤ durationScore s₂.duration) := by
  have hsr : (process_reference_audio destPath origPath origSr d).sample_rate = 32000 := by
    unfold process_reference_audio
    by_cases h : origSr = 32000
    · simp [h]
    · simp [h]
  refine ⟨hsr, ?_, score_at_32000 s₁ h₁, ?_⟩
  · rw [hsr, sampleRateScore, if_pos (le_refl (32000 : ℤ))]
  · rw [score_at_32000 s₁ h₁, score_at_32000 s₂ h₂]
    constructor
    · intro h
      linarith
    · intro h
      linarith

/-- C10 witness: a 44100 Hz upload is stored at 32000 Hz; two stored samples
(5 s and 9 s) compare by duration alone. -/
theorem C10_witness :
    (⟨"q", "q", 5, 32000⟩ : AudioSample).sample_rate = 32000 ∧
    (⟨"r", "r", 9, 32000⟩ : AudioSample).sample_rate = 32000 ∧
    ((process_reference_audio "d" "o" 44100 5).sample_rate = 32000 ∧
      sampleRateScore (process_reference_audio "d" "o" 44100 5).sample_rate = 20 ∧
      calculate_audio_quality_score ⟨"q", "q", 5, 32000⟩
        = 70 + durationScore (⟨"q", "q", 5, 32000⟩ : AudioSample).duration ∧
      (calculate_audio_quality_score ⟨"q", "q", 5, 32000⟩
          ≤ calculate_audio_quality_score ⟨"r", "r", 9, 32000⟩
        ↔ durationScore (⟨"q", "q", 5, 32000⟩ : AudioSample).duration
            ≤ durationScore (⟨"r", "r", 9, 32000⟩ : AudioSample).duration)) :=
  ⟨rfl, rfl, C10_stored_rate_32000 "d" "o" 44100 5 ⟨"q", "q", 5, 32000⟩
    ⟨"r", "r", 9, 32000⟩ rfl rfl⟩

/-! ## The training pipeline (`gpt_sovits_trainer.py`)

Subprocess steps and the filesystem are modelled by explicit parameters
holding exactly what the Python code observes: boolean exit status of each
launched step, row counts read from the manifest files, directory listings
(with a modification-time map) at the moment the code lists them. -/

/-- Python `needle in hay` on strings. -/
def strContains (hay needle : String) : Bool :=
  if needle = "" then true else 2 ≤ (hay.splitOn needle).length

/-- Python `str(x)` for an optional string — `None` prints as "None"; used to
model `f"训练失败: {result.get('error', '未知错误')}"` where the `error` key
always exists (it is initialised to `None`), so the default never applies. -/
def pyStrOpt (o : Option String) : String :=
  match o with
  | some s => s
  | none => "None"

/-- What `run_data_preprocessing` (lines 186-438) returns, reduced to the
data it actually inspects: the three preprocessing subprocess steps must exit
zero, `input_text.txt` must exist, the semantic tsv must exist and be
non-empty.  A row-count mismatch between the semantic table and the
transcript manifest (lines 368-384) only prints a warning carrying the delta
`len(expected_files) - semantic_count`; it does NOT change the return value.
The result is the returned boolean paired with the printed warning delta. -/
def run_data_preprocessing (inputTextExists step1aOk step1bOk step1cOk : Bool)
    (semanticFileExists : Bool) (semanticRows transcriptRows fileSize : ℕ) :
    Bool × Option ℤ :=
  if inputTextExists = false then (false, none)
  else if step1aOk = false then (false, none)
  else if step1bOk = false then (false, none)
  else if step1cOk = false then (false, none)
  else if semanticFileExists = false then (false, none)
  else
    let warn : Option ℤ :=
      if semanticRows ≠ transcriptRows
      then some ((transcriptRows : ℤ) - (semanticRows : ℤ)) else none
    if fileSize = 0 then (false, warn) else (true, warn)

/-- Snapshot of the `logs_s1` directory at the moment `train_stage1_gpt`
searches it for checkpoints: whether it exists, its file listing, and the
modification time of each file. -/
structure Stage1Fs where
  logsDirPresent : Bool
  files : List String
  mtime : String → ℚ

/-- The checkpoint search at the end of `train_stage1_gpt` (lines 584-603):
require the `logs_s1` directory, filter to `.ckpt` files, sort by
modification time descending (newest first, Python stable sort), join the
winner onto the directory path. -/
def train_stage1_findModel (logsDir : String) (fs : Stage1Fs) : Option String :=
  if fs.logsDirPresent = false then none
  else
    match sortGtBy (fun f g => decide (fs.mtime g < fs.mtime f))
        (fs.files.filter (fun f => f.endsWith ".ckpt")) with
    | [] => none
    | f :: _ => some (logsDir ++ "/" ++ f)

/-- `train_stage1_gpt` (lines 440-603), reduced to its control flow: the
pre-launch validation requires the semantic row count to equal the phoneme
row count and to be nonzero (returning `None` otherwise, BEFORE the training
subprocess is launched); then the subprocess must exit zero; then the newest
checkpoint is located. -/
def train_stage1_gpt (semanticRows phonemeRows : ℕ) (subprocOk : Bool)
    (logsDir : String) (fs : Stage1Fs) : Option String :=
  if semanticRows ≠ phonemeRows then none
  else if semanticRows = 0 then none
  else if subprocOk = false then none
  else train_stage1_findModel logsDir fs

/-- Whether `train_stage1_gpt` reaches `subprocess.Popen` (line 564): exactly
when the pre-launch validation passes. -/
def stage1_subprocess_launches (semanticRows phonemeRows : ℕ) : Bool :=
  decide (semanticRows = phonemeRows) && decide (semanticRows ≠ 0)

/-- Snapshot of the `logs_s2_v2` directory at the moment `train_stage2_sovits`
searches it, plus the outcome of `_convert_checkpoint_to_weight` (whether the
conversion succeeds and the epoch number stamped into the converted name). -/
structure Stage2Fs where
  logsDirPresent : Bool
  files : List String
  mtime : String → ℚ
  conversionOk : Bool
  convEpoch : ℕ

/-- The file name `f"{speaker_name}_e{epoch}.pth"` written by
`_convert_checkpoint_to_weight` (line 676). -/
def convertedWeightName (speaker : String) (epoch : ℕ) : String :=
  speaker ++ "_e" ++ toString epoch ++ ".pth"

/-- The final-weight filter of `train_stage2_sovits` (lines 817-824). -/
def isFinalWeight (speaker f : String) : Bool :=
  f.endsWith ".pth" && strContains f speaker && strContains f "_e"
    && !f.startsWith "G_" && !f.startsWith "D_"

/-- `train_stage2_sovits` (lines 691-861), reduced to its control flow: the
three precondition checks raise `ValueError` (modelled as `.error`); a
nonzero subprocess exit or a missing output directory yields no model; else
prefer the lexicographically greatest final weight file (`sort(reverse=True)`
on names); else take the mtime-newest `G_*.pth` checkpoint and convert it,
falling back to the raw checkpoint path when conversion fails. -/
def train_stage2_sovits (wavDirPresent cnhubertDirPresent name2textAvailable : Bool)
    (subprocOk : Bool) (logsDir speaker : String) (fs : Stage2Fs) :
    Except String (Option String) :=
  if wavDirPresent = false then .error "WAV 目录不存在"
  else if cnhubertDirPresent = false then .error "HuBERT 目录不存在"
  else if name2textAvailable = false then .error "文本标注文件不存在"
  else if subprocOk = false then .ok none
  else if fs.logsDirPresent = false then .ok none
  else
    match sortGtBy (fun a b => decide (b < a))
        (fs.files.filter (fun f => isFinalWeight speaker f)) with
    | f :: _ => .ok (some (logsDir ++ "/" ++ f))
    | [] =>
      match sortGtBy (fun f g => decide (fs.mtime g < fs.mtime f))
          (fs.files.filter (fun f => f.startsWith "G_" && f.endsWith ".pth")) with
      | [] => .ok none
      | g :: _ =>
        if fs.conversionOk
        then .ok (some (logsDir ++ "/" ++ convertedWeightName speaker fs.convEpoch))
        else .ok (some (logsDir ++ "/" ++ g))

/-- The result dictionary built by `train_speaker_complete` (lines 892-900). -/
structure TrainResult where
  status : String
  gpt_model : Option String
  sovits_model : Option String
  exp_dir : Option String
  error : Option String
deriving Repr, DecidableEq

/-- `train_speaker_complete` (lines 863-944): data preparation (an exception
is caught and stored), preprocessing (failure stops with the fixed message
"数据预处理失败"), stage 1 (a `None` result stops with "Stage 1 训练失败"),
stage 2 (a raised exception is caught and stored with the GPT model already
recorded; a `None` result stops with "Stage 2 训练失败"); only the full run
flips `status` to "completed".  The stage directories are derived from the
experiment directory returned by data preparation, as in the source. -/
def train_speaker_complete (speaker : String) (prep : Except String String)
    (preprocessOk : Bool) (semanticRows phonemeRows : ℕ)
    (s1subOk : Bool) (s1fs : Stage1Fs)
    (wavDirPresent cnhubertDirPresent name2textAvailable s2subOk : Bool)
    (s2fs : Stage2Fs) : TrainResult :=
  match prep with
  | .error e =>
    { status := "failed", gpt_model := none, sovits_model := none,
      exp_dir := none, error := some e }
  | .ok expDir =>
    if preprocessOk = false then
      { status := "failed", gpt_model := none, sovits_model := none,
        exp_dir := some expDir, error := some "数据预处理失败" }
    else
      match train_stage1_gpt semanticRows phonemeRows s1subOk
          (expDir ++ "/logs_s1") s1fs with
      | none =>
        { status := "failed", gpt_model := none, sovits_model := none,
          exp_dir := some expDir, error := some "Stage 1 训练失败" }
      | some g =>
        match train_stage2_sovits wavDirPresent cnhubertDirPresent
            name2textAvailable s2subOk (expDir ++ "/logs_s2_v2") speaker s2fs with
        | .error e =>
          { status := "failed", gpt_model := some g, sovits_model := none,
            exp_dir := some expDir, error := some e }
        | .ok none =>
          { status := "failed", gpt_model := some g, sovits_model := none,
            exp_dir := some expDir, error := some "Stage 2 训练失败" }
        | .ok (some s) =>
          { status := "completed", gpt_model := some g, sovits_model := some s,
            exp_dir := some expDir, error := none }

/-! ## The speaker-level training entry point (`audio_generator_sovits.py`) -/

/-- The model-info dictionary built by `_train_with_sovits_complete`
(lines 299-305) and stored on the speaker record: output directory, the two
artifact paths as returned by the pipeline, and the method tag. -/
structure SpeakerModelInfo where
  model_path : String
  gpt_model : Option String
  sovits_model : Option String
  method : String
deriving Repr, DecidableEq

/-- One entry of `speakers_data`: the sample list, the `trained` flag and the
optional `model_info` (lines 145-151 create it with `trained = False`). -/
structure SpeakerRecord where
  audio_files : List AudioSample
  trained : Bool
  model_info : Option SpeakerModelInfo
deriving Repr, DecidableEq

/-- One entry of the `training_status` in-memory dict: `training` carries the
epoch total, `completed` the result, `failed` the error string
(lines 200-205, 224-229, 244-248). -/
inductive TrainStatus where
  | training (total_epochs : ℕ)
  | completed (info : SpeakerModelInfo)
  | failed (error : String)
deriving Repr, DecidableEq

/-- The generator's mutable state: `speakers_data` and `training_status`,
both keyed by speaker name (association lists standing for Python dicts). -/
structure GenState where
  speakers : List (String × SpeakerRecord)
  training_status : List (String × TrainStatus)
deriving Repr, DecidableEq

/-- Python `d.get(k)` on an association list. -/
def lookupA {β : Type} : List (String × β) → String → Option β
  | [], _ => none
  | (k', v) :: t, k => if k' = k then some v else lookupA t k

/-- Python `d[k] = v` on an association list. -/
def setA {β : Type} : List (String × β) → String → β → List (String × β)
  | [], k, v => [(k, v)]
  | (k', v') :: t, k, v => if k' = k then (k, v) :: t else (k', v') :: setA t k v

theorem lookupA_setA {β : Type} (l : List (String × β)) (k k' : String) (v : β) :
    lookupA (setA l k v) k' = if k = k' then some v else lookupA l k' := by
  induction l with
  | nil =>
    by_cases h : k = k' <;> simp [setA, lookupA, h]
  | cons p t ih =>
    obtain ⟨pk, pv⟩ := p
    by_cases hpk : pk = k
    · subst hpk
      by_cases h : pk = k' <;> simp [setA, lookupA, h, ih]
    · by_cases h : pk = k'
      · subst h
        rw [setA, if_neg hpk, lookupA, if_pos rfl,
          if_neg (fun hk => hpk hk.symm), lookupA, if_pos rfl]
      · simp [setA, lookupA, hpk, h, ih]

/-- `_train_with_sovits_complete` (lines 251-305), reduced to the data flow:
a pipeline result whose status is not "completed" raises
`"训练失败: " + str(result.get('error', '未知错误'))`; otherwise the model-info
dictionary is assembled from the pipeline result and the per-speaker output
directory.  (`s2_epochs = max(8, int(epochs * 0.67))` and the json dump are
not observable in the stored record and are omitted.) -/
def train_with_sovits_complete (tr : TrainResult) (modelOutputDir : String) :
    Except String SpeakerModelInfo :=
  if tr.status ≠ "completed" then
    .error ("训练失败: " ++ pyStrOpt tr.error)
  else
    .ok { model_path := modelOutputDir, gpt_model := tr.gpt_model,
          sovits_model := tr.sovits_model, method := "gpt_sovits_trained" }

deriving instance DecidableEq for Except

/-- The value returned by `train_speaker` on success plus the state updates;
`ret` is the Python return value (reduced to the model path) or the raised
exception message; `pipelineInvoked` records whether control reached the
call of `_train_with_sovits_complete` (line 211). -/
structure TrainCallOutcome where
  ret : Except String String
  state : GenState
  pipelineInvoked : Bool
deriving Repr, DecidableEq

/-- `train_speaker` (lines 174-249): unknown speaker and a sample count < 3
raise before anything is recorded; otherwise the tracker entry is overwritten
with `training` (no check of any existing entry), the pipeline is invoked,
and on success the speaker record is marked trained with the model info while
the tracker entry becomes `completed`; a pipeline exception is recorded as
`failed` with the exception text and re-raised with the "训练失败: " prefix.
The `trainerAvailable` flag models `self.trainer` being `None` (line 209). -/
def train_speaker (st : GenState) (name : String) (epochs : ℕ)
    (trainerAvailable : Bool) (tr : TrainResult) (modelOutputDir : String) :
    TrainCallOutcome :=
  match lookupA st.speakers name with
  | none => ⟨.error ("未找到说话者 '" ++ name ++ "'"), st, false⟩
  | some sp =>
    if sp.audio_files.length < 3 then
      ⟨.error "训练需要至少3个音频文件", st, false⟩
    else
      let st₁ : GenState :=
        { st with training_status := setA st.training_status name (.training epochs) }
      if trainerAvailable = false then
        let tsf := setA st₁.training_status name (.failed "训练器未初始化，无法进行训练")
        ⟨.error "训练失败: 训练器未初始化，无法进行训练",
          { st₁ with training_status := tsf }, false⟩
      else
        match train_with_sovits_complete tr modelOutputDir with
        | .error e =>
          let tsf := setA st₁.training_status name (.failed e)
          ⟨.error ("训练失败: " ++ e), { st₁ with training_status := tsf }, true⟩
        | .ok info =>
          let sp₂ : SpeakerRecord := { sp with trained := true, model_info := some info }
          let st₂ : GenState := { st₁ with speakers := setA st₁.speakers name sp₂ }
          let tsc := setA st₂.training_status name (.completed info)
          ⟨.ok info.model_path, { st₂ with training_status := tsc }, true⟩

/-! ## C1 — semantic/transcript row mismatch -/

/-- Stage-1 directory snapshot used in concrete C1 runs. -/
def c1s1fs : Stage1Fs := ⟨true, ["m.ckpt"], fun _ => 0⟩

/-- Stage-2 directory snapshot used in concrete C1 runs. -/
def c1s2fs : Stage2Fs := ⟨true, ["a_e8.pth"], fun _ => 0, false, 0⟩

/-- C1 counterexample: with 10 transcript entries but only 8 semantic rows
(and 8 phoneme rows), the preprocessing step merely prints the delta-2
warning and returns success, the stage-1 subprocess is launched, and the
whole pipeline completes — the orchestrator never aborts before stage-1 and
never surfaces a data-consistency failure for the transcript/semantic
mismatch. -/
theorem C1_counterexample_mismatch_completes :
    (run_data_preprocessing true true true true true 8 10 1).1 = true ∧
    (run_data_preprocessing true true true true true 8 10 1).2 = some 2 ∧
    stage1_subprocess_launches 8 8 = true ∧
    (train_speaker_complete "a" (.ok "exp")
        (run_data_preprocessing true true true true true 8 10 1).1
        8 8 true c1s1fs true true true true c1s2fs).status = "completed" := by
  refine ⟨?_, ?_, ?_, ?_⟩ <;> with_unfolding_all rfl

/-- C1 (amended): after preprocessing, a semantic-row/transcript-row mismatch
only produces the printed warning carrying the delta (transcript − semantic);
preprocessing still reports success whenever the steps exited zero and the
semantic file exists non-empty.  The pipeline aborts before launching the
stage-1 training subprocess only when the semantic row count differs from the
PHONEME row count (or is zero), and that abort is recorded as the fixed
stage-1 failure message, without the delta. -/
theorem C1_mismatch_warns_stage1_gate_aborts (speaker expDir : String)
    (semR trR phonR fsz : ℕ) (s1subOk : Bool) (s1fs : Stage1Fs)
    (wavP cnhP n2tA s2subOk : Bool) (s2fs : Stage2Fs)
    (hmis : semR ≠ trR) (hfsz : fsz ≠ 0) (hph : semR ≠ phonR) :
    run_data_preprocessing true true true true true semR trR fsz
      = (true, some ((trR : ℤ) - (semR : ℤ))) ∧
    stage1_subprocess_launches semR phonR = false ∧
    (train_speaker_complete speaker (.ok expDir) true semR phonR s1subOk s1fs
        wavP cnhP n2tA s2subOk s2fs).status = "failed" ∧
    (train_speaker_complete speaker (.ok expDir) true semR phonR s1subOk s1fs
        wavP cnhP n2tA s2subOk s2fs).error = some "Stage 1 训练失败" := by
  refine ⟨?_, ?_, ?_, ?_⟩
  · simp [run_data_preprocessing, hmis, hfsz]
  · simp [stage1_subprocess_launches, hph]
  · simp [train_speaker_complete, train_stage1_gpt, hph]
  · simp [train_speaker_complete, train_stage1_gpt, hph]

/-- C1 witness: semantic 8 vs transcript 10 (delta 2) with phoneme count 7. -/
theorem C1_witness :
    (8 : ℕ) ≠ 10 ∧ (1 : ℕ) ≠ 0 ∧ (8 : ℕ) ≠ 7 ∧
    (run_data_preprocessing true true true true true 8 10 1
        = (true, some ((10 : ℤ) - (8 : ℤ))) ∧
      stage1_subprocess_launches 8 7 = false ∧
      (train_speaker_complete "a" (.ok "exp") true 8 7 true c1s1fs
          true true true true c1s2fs).status = "failed" ∧
      (train_speaker_complete "a" (.ok "exp") true 8 7 true c1s1fs
          true true true true c1s2fs).error = some "Stage 1 训练失败") :=
  ⟨by decide, by decide, by decide,
    C1_mismatch_warns_stage1_gate_aborts "a" "exp" 8 10 7 1 true c1s1fs
      true true true true c1s2fs (by decide) (by decide) (by decide)⟩

/-! ## C3 — failure semantics of the pipeline -/

/-- A pipeline result that is not "completed" makes
`_train_with_sovits_complete` raise the prefixed error text. -/
theorem train_with_sovits_complete_of_failed (tr : TrainResult) (dir : String)
    (h : tr.status ≠ "completed") :
    train_with_sovits_complete tr dir = .error ("训练失败: " ++ pyStrOpt tr.error) := by
  rw [train_with_sovits_complete, if_pos h]

/-- Every non-completed pipeline result records an error text, and that text
is either the data-preparation exception or the fixed message naming the
failing stage (the three stage-2 precondition `ValueError` texts included). -/
theorem train_speaker_complete_error_names_stage (speaker : String)
    (prep : Except String String) (preprocessOk : Bool) (semR phonR : ℕ)
    (s1subOk : Bool) (s1fs : Stage1Fs) (wavP cnhP n2tA s2subOk : Bool)
    (s2fs : Stage2Fs)
    (hfail : (train_speaker_complete speaker prep preprocessOk semR phonR
        s1subOk s1fs wavP cnhP n2tA s2subOk s2fs).status ≠ "completed") :
    ∃ e, (train_speaker_complete speaker prep preprocessOk semR phonR
        s1subOk s1fs wavP cnhP n2tA s2subOk s2fs).error = some e ∧
      (prep = .error e ∨ e = "数据预处理失败" ∨ e = "Stage 1 训练失败" ∨
        e = "Stage 2 训练失败" ∨ e = "WAV 目录不存在" ∨
        e = "HuBERT 目录不存在" ∨ e = "文本标注文件不存在") := by
  cases prep with
  | error e => exact ⟨e, rfl, Or.inl rfl⟩
  | ok expDir =>
    by_cases hpre : preprocessOk = false
    · refine ⟨"数据预处理失败", ?_, Or.inr (Or.inl rfl)⟩
      simp [train_speaker_complete, hpre]
    · cases hs1 : train_stage1_gpt semR phonR s1subOk (expDir ++ "/logs_s1") s1fs with
      | none =>
        refine ⟨"Stage 1 训练失败", ?_, Or.inr (Or.inr (Or.inl rfl))⟩
        simp [train_speaker_complete, hpre, hs1]
      | some g =>
        unfold train_stage2_sovits at *
        by_cases hw : wavP = false
        · refine ⟨"WAV 目录不存在", ?_, by tauto⟩
          simp [train_speaker_complete, train_stage2_sovits, hpre, hs1, hw]
        · by_cases hc : cnhP = false
          · refine ⟨"HuBERT 目录不存在", ?_, by tauto⟩
            simp [train_speaker_complete, train_stage2_sovits, hpre, hs1, hw, hc]
          · by_cases hn : n2tA = false
            · refine ⟨"文本标注文件不存在", ?_, by tauto⟩
              simp [train_speaker_complete, train_stage2_sovits, hpre, hs1, hw, hc, hn]
            · cases hs2 : train_stage2_sovits wavP cnhP n2tA s2subOk
                  (expDir ++ "/logs_s2_v2") speaker s2fs with
              | error e2 =>
                refine ⟨e2, ?_, ?_⟩
                · simp [train_speaker_complete, hpre, hs1, hs2]
                · unfold train_stage2_sovits at hs2
                  rw [if_neg hw, if_neg hc, if_neg hn] at hs2
                  by_cases hsub : s2subOk = false
                  · rw [if_pos hsub] at hs2
                    exact absurd hs2 (by simp)
                  · rw [if_neg hsub] at hs2
                    by_cases hld : s2fs.logsDirPresent = false
                    · rw [if_pos hld] at hs2
                      exact absurd hs2 (by simp)
                    · rw [if_neg hld] at hs2
                      revert hs2
                      cases sortGtBy (fun a b => decide (b < a))
                          (s2fs.files.filter (fun f => isFinalWeight speaker f)) with
                      | cons f fs => simp
                      | nil =>
                        cases sortGtBy (fun f g => decide (s2fs.mtime g < s2fs.mtime f))
                            (s2fs.files.filter
                              (fun f => f.startsWith "G_" && f.endsWith ".pth")) with
                        | nil => simp
                        | cons g gs =>
                          by_cases hco : s2fs.conversionOk <;> simp [hco]
              | ok os =>
                cases os with
                | none =>
                  refine ⟨"Stage 2 训练失败", ?_, by tauto⟩
                  simp [train_speaker_complete, hpre, hs1, hs2]
                | some s =>
                  exfalso
                  apply hfail
                  simp [train_speaker_complete, hpre, hs1, hs2]

/-- Shape of `train_speaker` when the pipeline raises: the tracker entry for
the speaker becomes `failed e`, the speakers map is untouched, and the
re-raised exception carries the extra "训练失败: " prefix. -/
theorem train_speaker_of_pipeline_error (st : GenState) (name : String)
    (sp : SpeakerRecord) (epochs : ℕ) (tr : TrainResult) (dir e : String)
    (hfound : lookupA st.speakers name = some sp)
    (hcount : ¬ sp.audio_files.length < 3)
    (herr : train_with_sovits_complete tr dir = .error e) :
    (train_speaker st name epochs true tr dir).ret = .error ("训练失败: " ++ e) ∧
    (train_speaker st name epochs true tr dir).state.speakers = st.speakers ∧
    (train_speaker st name epochs true tr dir).state.training_status
      = setA (setA st.training_status name (.training epochs)) name (.failed e) ∧
    (train_speaker st name epochs true tr dir).pipelineInvoked = true := by
  simp [train_speaker, hfound, hcount, herr]

/-- C3: for every run of the complete pipeline in which some stage fails (the
result status is not "completed"), `train_speaker` leaves the speakers map —
in particular every `trained` flag — unchanged, records a `failed` tracker
entry whose text is the originating stage's error (prep exception text, or
the fixed message naming the failing stage), and re-raises. -/
theorem C3_stage_failure_aborts_and_keeps_trained (st : GenState) (name : String)
    (sp : SpeakerRecord) (epochs : ℕ) (dir : String)
    (prep : Except String String) (preprocessOk : Bool) (semR phonR : ℕ)
    (s1subOk : Bool) (s1fs : Stage1Fs) (wavP cnhP n2tA s2subOk : Bool)
    (s2fs : Stage2Fs)
    (hfound : lookupA st.speakers name = some sp)
    (hcount : ¬ sp.audio_files.length < 3)
    (hfail : (train_speaker_complete name prep preprocessOk semR phonR
        s1subOk s1fs wavP cnhP n2tA s2subOk s2fs).status ≠ "completed") :
    (train_speaker st name epochs true
        (train_speaker_complete name prep preprocessOk semR phonR
          s1subOk s1fs wavP cnhP n2tA s2subOk s2fs) dir).state.speakers
      = st.speakers ∧
    ∃ e, (train_speaker_complete name prep preprocessOk semR phonR
          s1subOk s1fs wavP cnhP n2tA s2subOk s2fs).error = some e ∧
      (train_speaker st name epochs true
          (train_speaker_complete name prep preprocessOk semR phonR
            s1subOk s1fs wavP cnhP n2tA s2subOk s2fs) dir).ret
        = .error ("训练失败: " ++ ("训练失败: " ++ e)) ∧
      lookupA (train_speaker st name epochs true
          (train_speaker_complete name prep preprocessOk semR phonR
            s1subOk s1fs wavP cnhP n2tA s2subOk s2fs) dir).state.training_status name
        = some (.failed ("训练失败: " ++ e)) ∧
      (prep = .error e ∨ e = "数据预处理失败" ∨ e = "Stage 1 训练失败" ∨
        e = "Stage 2 训练失败" ∨ e = "WAV 目录不存在" ∨
        e = "HuBERT 目录不存在" ∨ e = "文本标注文件不存在") := by
  obtain ⟨e, herr, hstage⟩ := train_speaker_complete_error_names_stage name prep
    preprocessOk semR phonR s1subOk s1fs wavP cnhP n2tA s2subOk s2fs hfail
  have hraise : train_with_sovits_complete
      (train_speaker_complete name prep preprocessOk semR phonR
        s1subOk s1fs wavP cnhP n2tA s2subOk s2fs) dir
      = .error ("训练失败: " ++ e) := by
    rw [train_with_sovits_complete_of_failed _ _ hfail, herr]
    rfl
  obtain ⟨hret, hspk, hts, hinv⟩ :=
    train_speaker_of_pipeline_error st name sp epochs _ dir _ hfound hcount hraise
  refine ⟨hspk, e, herr, hret, ?_, hstage⟩
  rw [hts, lookupA_setA]
  simp

/-- Generator state for the C3 witness: speaker "alice" with three uploaded
samples, not yet trained, empty tracker. -/
def c3state : GenState := ⟨[("alice", ⟨c7demo, false, none⟩)], []⟩

/-- Pipeline run for the C3 witness: data preparation succeeds but
preprocessing fails. -/
def c3tr : TrainResult :=
  train_speaker_complete "alice" (.ok "exp") false 0 0 true c1s1fs
    true true true true c1s2fs

/-- C3 witness: the failure-semantics theorem applied to the concrete
preprocessing-failure run against `c3state`. -/
theorem C3_witness :
    lookupA c3state.speakers "alice" = some ⟨c7demo, false, none⟩ ∧
    ¬ (⟨c7demo, false, none⟩ : SpeakerRecord).audio_files.length < 3 ∧
    c3tr.status ≠ "completed" ∧
    ((train_speaker c3state "alice" 8 true c3tr "models/trained_speakers/alice").state.speakers
        = c3state.speakers ∧
      ∃ e, c3tr.error = some e ∧
        (train_speaker c3state "alice" 8 true c3tr
            "models/trained_speakers/alice").ret
          = .error ("训练失败: " ++ ("训练失败: " ++ e)) ∧
        lookupA (train_speaker c3state "alice" 8 true c3tr
            "models/trained_speakers/alice").state.training_status "alice"
          = some (.failed ("训练失败: " ++ e)) ∧
        ((.ok "exp" : Except String String) = .error e ∨ e = "数据预处理失败" ∨
          e = "Stage 1 训练失败" ∨ e = "Stage 2 训练失败" ∨ e = "WAV 目录不存在" ∨
          e = "HuBERT 目录不存在" ∨ e = "文本标注文件不存在")) :=
  ⟨rfl, by decide, by decide,
    C3_stage_failure_aborts_and_keeps_trained c3state "alice" ⟨c7demo, false, none⟩
      8 "models/trained_speakers/alice" (.ok "exp") false 0 0 true c1s1fs
      true true true true c1s2fs rfl (by decide) (by decide)⟩

/-! ## C2 — no rejection of a second in-flight train request -/

/-- Generator state for the C2 counterexample: "alice" has three samples and
her tracker entry is currently `training`. -/
def c2state : GenState := ⟨[("alice", ⟨c7demo, false, none⟩)], [("alice", .training 8)]⟩

/-- Stage-2 snapshot whose final weight file matches speaker "alice". -/
def c2s2fs : Stage2Fs := ⟨true, ["alice_e8.pth"], fun _ => 0, false, 0⟩

/-- A fully successful pipeline run for "alice". -/
def c2tr : TrainResult :=
  train_speaker_complete "alice" (.ok "exp") true 3 3 true c1s1fs
    true true true true c2s2fs

/-- C2 counterexample: with "alice" already in the `training` state, a second
`train_speaker` call is NOT rejected — it reaches the pipeline invocation,
returns success, and overwrites the tracker entry.  No code path consults the
existing tracker entry. -/
theorem C2_counterexample_second_request_accepted :
    lookupA c2state.training_status "alice" = some (.training 8) ∧
    (train_speaker c2state "alice" 8 true c2tr "m").pipelineInvoked = true ∧
    (train_speaker c2state "alice" 8 true c2tr "m").ret = .ok "m" ∧
    lookupA (train_speaker c2state "alice" 8 true c2tr "m").state.training_status
        "alice"
      = some (.completed ⟨"m", some "exp/logs_s1/m.ckpt",
          some "exp/logs_s2_v2/alice_e8.pth", "gpt_sovits_trained"⟩) := by
  refine ⟨rfl, ?_, ?_, ?_⟩ <;> with_unfolding_all rfl

/-- C2 (amended): a train request is rejected only for an unknown speaker or
fewer than three samples; the tracker is never consulted, so a second request
while the tracker shows `training` still invokes the pipeline, and the call's
outcome is independent of the tracker contents. -/
theorem C2_tracker_not_consulted (st : GenState) (name : String)
    (sp : SpeakerRecord) (epochs e0 : ℕ) (tr : TrainResult) (dir : String)
    (hfound : lookupA st.speakers name = some sp)
    (hcount : ¬ sp.audio_files.length < 3)
    (hbusy : lookupA st.training_status name = some (.training e0)) :
    (train_speaker st name epochs true tr dir).pipelineInvoked = true ∧
    (∀ ts₂ : List (String × TrainStatus),
      (train_speaker ⟨st.speakers, ts₂⟩ name epochs true tr dir).ret
        = (train_speaker st name epochs true tr dir).ret ∧
      (train_speaker ⟨st.speakers, ts₂⟩ name epochs true tr dir).pipelineInvoked
        = (train_speaker st name epochs true tr dir).pipelineInvoked) := by
  constructor
  · cases htr : train_with_sovits_complete tr dir <;>
      simp [train_speaker, hfound, hcount, htr]
  · intro ts₂
    cases htr : train_with_sovits_complete tr dir <;>
      simp [train_speaker, hfound, hcount, htr]

/-- C2 witness: the amended theorem applied to `c2state`. -/
theorem C2_witness :
    lookupA c2state.speakers "alice" = some ⟨c7demo, false, none⟩ ∧
    ¬ (⟨c7demo, false, none⟩ : SpeakerRecord).audio_files.length < 3 ∧
    lookupA c2state.training_status "alice" = some (.training 8) ∧
    ((train_speaker c2state "alice" 8 true c2tr "m").pipelineInvoked = true ∧
      (∀ ts₂ : List (String × TrainStatus),
        (train_speaker ⟨c2state.speakers, ts₂⟩ "alice" 8 true c2tr "m").ret
          = (train_speaker c2state "alice" 8 true c2tr "m").ret ∧
        (train_speaker ⟨c2state.speakers, ts₂⟩ "alice" 8 true c2tr "m").pipelineInvoked
          = (train_speaker c2state "alice" 8 true c2tr "m").pipelineInvoked)) :=
  ⟨rfl, by decide, rfl,
    C2_tracker_not_consulted c2state "alice" ⟨c7demo, false, none⟩ 8 8 c2tr "m"
      rfl (by decide) rfl⟩

/-! ## C4 — trained speakers always carry both artifact paths -/

theorem lookupA_mem {β : Type} (l : List (String × β)) (k : String) (v : β)
    (h : lookupA l k = some v) : (k, v) ∈ l := by
  induction l with
  | nil => simp [lookupA] at h
  | cons p t ih =>
    obtain ⟨pk, pv⟩ := p
    rw [lookupA] at h
    by_cases hk : pk = k
    · rw [if_pos hk] at h
      injection h with h
      subst hk
      subst h
      exact List.mem_cons_self _ _
    · rw [if_neg hk] at h
      exact List.mem_cons_of_mem _ (ih h)

theorem mem_setA {β : Type} (l : List (String × β)) (k : String) (v : β)
    (q : String × β) (h : q ∈ setA l k v) : q = (k, v) ∨ q ∈ l := by
  induction l with
  | nil => simpa [setA] using h
  | cons p t ih =>
    obtain ⟨pk, pv⟩ := p
    rw [setA] at h
    by_cases hk : pk = k
    · rw [if_pos hk] at h
      rcases List.mem_cons.mp h with h | h
      · exact Or.inl h
      · exact Or.inr (List.mem_cons_of_mem _ h)
    · rw [if_neg hk] at h
      rcases List.mem_cons.mp h with h | h
      · exact Or.inr (h ▸ List.mem_cons_self _ _)
      · rcases ih h with h | h
        · exact Or.inl h
        · exact Or.inr (List.mem_cons_of_mem _ h)

/-- Python `del d[name]` on an association list. -/
def removeA {β : Type} : List (String × β) → String → List (String × β)
  | [], _ => []
  | (k', v) :: t, k => if k' = k then t else (k', v) :: removeA t k

theorem mem_removeA {β : Type} (l : List (String × β)) (k : String)
    (q : String × β) (h : q ∈ removeA l k) : q ∈ l := by
  induction l with
  | nil => simpa [removeA] using h
  | cons p t ih =>
    obtain ⟨pk, pv⟩ := p
    rw [removeA] at h
    by_cases hk : pk = k
    · rw [if_pos hk] at h
      exact List.mem_cons_of_mem _ h
    · rw [if_neg hk] at h
      rcases List.mem_cons.mp h with h | h
      · exact h ▸ List.mem_cons_self _ _
      · exact List.mem_cons_of_mem _ (ih h)

theorem append_slash_ne_empty (a f : String) : a ++ "/" ++ f ≠ "" := by
  intro h
  have hlen := congrArg String.length h
  rw [String.length_append, String.length_append] at hlen
  have : ("/" : String).length = 1 := rfl
  rw [this] at hlen
  simp at hlen

/-- Every checkpoint path produced by the stage-1 search joins the logs
directory with a `.ckpt` file present in the directory listing at search
time. -/
theorem train_stage1_findModel_spec (logsDir : String) (fs : Stage1Fs) (p : String)
    (h : train_stage1_findModel logsDir fs = some p) :
    ∃ f, f ∈ fs.files ∧ f.endsWith ".ckpt" = true ∧ p = logsDir ++ "/" ++ f := by
  unfold train_stage1_findModel at h
  by_cases hld : fs.logsDirPresent = false
  · rw [if_pos hld] at h
    exact absurd h (by simp)
  · rw [if_neg hld] at h
    revert h
    cases hs : sortGtBy (fun f g => decide (fs.mtime g < fs.mtime f))
        (fs.files.filter (fun f => f.endsWith ".ckpt")) with
    | nil => intro h; exact absurd h (by simp)
    | cons f rest =>
      intro h
      injection h with h
      have hf : f ∈ fs.files.filter (fun f => f.endsWith ".ckpt") :=
        mem_of_mem_sortGtBy (hs ▸ List.mem_cons_self f rest)
      rcases List.mem_filter.mp hf with ⟨hmem, hckpt⟩
      exact ⟨f, hmem, hckpt, h.symm⟩

/-- Every model path produced by the stage-2 search either joins the logs
directory with a file present in the listing at search time, or is the
conversion output written at that moment. -/
theorem train_stage2_sovits_spec (wavP cnhP n2tA s2subOk : Bool)
    (logsDir speaker : String) (fs : Stage2Fs) (p : String)
    (h : train_stage2_sovits wavP cnhP n2tA s2subOk logsDir speaker fs
        = .ok (some p)) :
    (∃ f, f ∈ fs.files ∧ p = logsDir ++ "/" ++ f) ∨
      (fs.conversionOk = true ∧
        p = logsDir ++ "/" ++ convertedWeightName speaker fs.convEpoch) := by
  unfold train_stage2_sovits at h
  by_cases hw : wavP = false
  · rw [if_pos hw] at h
    exact absurd h (by simp)
  · rw [if_neg hw] at h
    by_cases hc : cnhP = false
    · rw [if_pos hc] at h
      exact absurd h (by simp)
    · rw [if_neg hc] at h
      by_cases hn : n2tA = false
      · rw [if_pos hn] at h
        exact absurd h (by simp)
      · rw [if_neg hn] at h
        by_cases hsub : s2subOk = false
        · rw [if_pos hsub] at h
          exact absurd h (by simp)
        · rw [if_neg hsub] at h
          by_cases hld : fs.logsDirPresent = false
          · rw [if_pos hld] at h
            exact absurd h (by simp)
          · rw [if_neg hld] at h
            revert h
            cases hs : sortGtBy (fun a b => decide (b < a))
                (fs.files.filter (fun f => isFinalWeight speaker f)) with
            | cons f rest =>
              intro h
              injection h with h
              injection h with h
              have hf : f ∈ fs.files.filter (fun f => isFinalWeight speaker f) :=
                mem_of_mem_sortGtBy (hs ▸ List.mem_cons_self f rest)
              exact Or.inl ⟨f, (List.mem_filter.mp hf).1, h.symm⟩
            | nil =>
              cases hg : sortGtBy (fun f g => decide (fs.mtime g < fs.mtime f))
                  (fs.files.filter
                    (fun f => f.startsWith "G_" && f.endsWith ".pth")) with
              | nil => intro h; exact absurd h (by simp)
              | cons g rest =>
                intro h
                dsimp only at h
                by_cases hco : fs.conversionOk = true
                · rw [if_pos hco] at h
                  injection h with h
                  injection h with h
                  exact Or.inr ⟨hco, h.symm⟩
                · rw [if_neg hco] at h
                  injection h with h
                  injection h with h
                  have hgm : g ∈ fs.files.filter
                      (fun f => f.startsWith "G_" && f.endsWith ".pth") :=
                    mem_of_mem_sortGtBy (hg ▸ List.mem_cons_self g rest)
                  exact Or.inl ⟨g, (List.mem_filter.mp hgm).1, h.symm⟩

/-- A completed pipeline run carries both artifact paths, and both are
non-empty joined paths. -/
theorem train_speaker_complete_completed_models (speaker : String)
    (prep : Except String String) (preprocessOk : Bool) (semR phonR : ℕ)
    (s1subOk : Bool) (s1fs : Stage1Fs) (wavP cnhP n2tA s2subOk : Bool)
    (s2fs : Stage2Fs)
    (hc : (train_speaker_complete speaker prep preprocessOk semR phonR
        s1subOk s1fs wavP cnhP n2tA s2subOk s2fs).status = "completed") :
    ∃ g s, (train_speaker_complete speaker prep preprocessOk semR phonR
        s1subOk s1fs wavP cnhP n2tA s2subOk s2fs).gpt_model = some g ∧
      (train_speaker_complete speaker prep preprocessOk semR phonR
        s1subOk s1fs wavP cnhP n2tA s2subOk s2fs).sovits_model = some s ∧
      g ≠ "" ∧ s ≠ "" := by
  cases prep with
  | error e => exact absurd hc (by simp [train_speaker_complete])
  | ok expDir =>
    by_cases hpre : preprocessOk = false
    · exact absurd hc (by simp [train_speaker_complete, hpre])
    · cases hs1 : train_stage1_gpt semR phonR s1subOk (expDir ++ "/logs_s1") s1fs with
      | none => exact absurd hc (by simp [train_speaker_complete, hpre, hs1])
      | some g =>
        cases hs2 : train_stage2_sovits wavP cnhP n2tA s2subOk
            (expDir ++ "/logs_s2_v2") speaker s2fs with
        | error e2 => exact absurd hc (by simp [train_speaker_complete, hpre, hs1, hs2])
        | ok os =>
          cases os with
          | none => exact absurd hc (by simp [train_speaker_complete, hpre, hs1, hs2])
          | some s =>
            refine ⟨g, s, ?_, ?_, ?_, ?_⟩
            · simp [train_speaker_complete, hpre, hs1, hs2]
            · simp [train_speaker_complete, hpre, hs1, hs2]
            · have hfm : train_stage1_findModel (expDir ++ "/logs_s1") s1fs = some g := by
                unfold train_stage1_gpt at hs1
                by_cases h1 : semR ≠ phonR
                · rw [if_pos h1] at hs1
                  exact absurd hs1 (by simp)
                · rw [if_neg h1] at hs1
                  by_cases h2 : semR = 0
                  · rw [if_pos h2] at hs1
                    exact absurd hs1 (by simp)
                  · rw [if_neg h2] at hs1
                    by_cases h3 : s1subOk = false
                    · rw [if_pos h3] at hs1
                      exact absurd hs1 (by simp)
                    · rw [if_neg h3] at hs1
                      exact hs1
              obtain ⟨f, _, _, hp⟩ :=
                train_stage1_findModel_spec (expDir ++ "/logs_s1") s1fs g hfm
              exact hp ▸ append_slash_ne_empty _ f
            · rcases train_stage2_sovits_spec wavP cnhP n2tA s2subOk
                  (expDir ++ "/logs_s2_v2") speaker s2fs s hs2 with ⟨f, _, hp⟩ | ⟨_, hp⟩
              · exact hp ▸ append_slash_ne_empty _ f
              · exact hp ▸ append_slash_ne_empty _ _

/-- `_train_with_sovits_complete` returns successfully exactly for a
completed pipeline run, and then the stored model info is the assembled
record. -/
theorem train_with_sovits_complete_ok (tr : TrainResult) (dir : String)
    (info : SpeakerModelInfo)
    (h : train_with_sovits_complete tr dir = .ok info) :
    tr.status = "completed" ∧
    info = ⟨dir, tr.gpt_model, tr.sovits_model, "gpt_sovits_trained"⟩ := by
  unfold train_with_sovits_complete at h
  by_cases hs : tr.status ≠ "completed"
  · rw [if_pos hs] at h
    exact absurd h (by simp)
  · rw [if_neg hs] at h
    injection h with h
    exact ⟨not_not.mp hs, h.symm⟩

/-- The `speakers_data` update of `process_reference_audio` (lines 144-160):
create the record with `trained = False` on first upload, then append the new
sample to the speaker's list. -/
def uploadOp (st : GenState) (name destPath origPath : String) (origSr : ℤ)
    (d : ℚ) : GenState :=
  let sample := process_reference_audio destPath origPath origSr d
  match lookupA st.speakers name with
  | none =>
    { st with speakers := setA st.speakers name ⟨[sample], false, none⟩ }
  | some sp =>
    let sp' : SpeakerRecord := { sp with audio_files := sp.audio_files ++ [sample] }
    { st with speakers := setA st.speakers name sp' }

/-- `delete_speaker` (lines 663-690): unknown speakers raise with the state
unchanged; otherwise the entry is removed (the tracker is not touched). -/
def delete_speaker (st : GenState) (name : String) : GenState :=
  match lookupA st.speakers name with
  | none => st
  | some _ => { st with speakers := removeA st.speakers name }

/-- The reachable states of the generator: empty store at start-up, then any
interleaving of uploads, training runs (driven by arbitrary pipeline
observations) and deletions. -/
inductive Reachable : GenState → Prop where
  | init : Reachable ⟨[], []⟩
  | upload (st : GenState) (name destPath origPath : String) (origSr : ℤ) (d : ℚ) :
      Reachable st → Reachable (uploadOp st name destPath origPath origSr d)
  | train (st : GenState) (name dir : String) (epochs : ℕ)
      (trainerAvailable : Bool) (prep : Except String String)
      (preprocessOk : Bool) (semR phonR : ℕ) (s1subOk : Bool) (s1fs : Stage1Fs)
      (wavP cnhP n2tA s2subOk : Bool) (s2fs : Stage2Fs) :
      Reachable st →
      Reachable (train_speaker st name epochs trainerAvailable
        (train_speaker_complete name prep preprocessOk semR phonR s1subOk s1fs
          wavP cnhP n2tA s2subOk s2fs) dir).state
  | delete (st : GenState) (name : String) :
      Reachable st → Reachable (delete_speaker st name)

/-- The store invariant: every trained entry carries a model-info record with
both artifact paths present and non-empty. -/
def EntriesInvariant (st : GenState) : Prop :=
  ∀ q ∈ st.speakers, (q.2 : SpeakerRecord).trained = true →
    ∃ mi g s, q.2.model_info = some mi ∧ mi.gpt_model = some g ∧
      mi.sovits_model = some s ∧ g ≠ "" ∧ s ≠ ""

/-- After `train_speaker` the speakers map is either untouched or updated at
`name` with the trained record assembled from a successful pipeline result. -/
theorem train_speaker_state_speakers (st : GenState) (name : String)
    (epochs : ℕ) (avail : Bool) (tr : TrainResult) (dir : String) :
    (train_speaker st name epochs avail tr dir).state.speakers = st.speakers ∨
    ∃ sp info, lookupA st.speakers name = some sp ∧
      train_with_sovits_complete tr dir = .ok info ∧
      (train_speaker st name epochs avail tr dir).state.speakers
        = setA st.speakers name
            { sp with trained := true, model_info := some info } := by
  cases hlk : lookupA st.speakers name with
  | none =>
    left
    simp [train_speaker, hlk]
  | some sp =>
    by_cases hcnt : sp.audio_files.length < 3
    · left
      simp [train_speaker, hlk, hcnt]
    · by_cases hav : avail = false
      · left
        simp [train_speaker, hlk, hcnt, hav]
      · cases htr : train_with_sovits_complete tr dir with
        | error e =>
          left
          simp [train_speaker, hlk, hcnt, hav, htr]
        | ok info =>
          right
          exact ⟨sp, info, rfl, rfl, by simp [train_speaker, hlk, hcnt, hav, htr]⟩

/-- Every reachable state satisfies the trained-speaker invariant. -/
theorem reachable_entries_invariant (st : GenState) (h : Reachable st) :
    EntriesInvariant st := by
  induction h with
  | init =>
    intro q hq
    simp at hq
  | upload st name destPath origPath origSr d hr ih =>
    intro q hq htr
    cases hlk : lookupA st.speakers name with
    | none =>
      have hsp : (uploadOp st name destPath origPath origSr d).speakers
          = setA st.speakers name
              ⟨[process_reference_audio destPath origPath origSr d], false, none⟩ := by
        simp [uploadOp, hlk]
      rw [hsp] at hq
      rcases mem_setA _ _ _ _ hq with hq | hq
      · rw [hq] at htr
        simp at htr
      · exact ih q hq htr
    | some sp =>
      have hsp : (uploadOp st name destPath origPath origSr d).speakers
          = setA st.speakers name
              { sp with audio_files :=
                  sp.audio_files ++ [process_reference_audio destPath origPath origSr d] } := by
        simp [uploadOp, hlk]
      rw [hsp] at hq
      rcases mem_setA _ _ _ _ hq with hq | hq
      · have hsptr : sp.trained = true := by
          rw [hq] at htr
          exact htr
        obtain ⟨mi, g, s, hmi, hg, hs, hgne, hsne⟩ :=
          ih (name, sp) (lookupA_mem _ _ _ hlk) hsptr
        refine ⟨mi, g, s, ?_, hg, hs, hgne, hsne⟩
        rw [hq]
        exact hmi
      · exact ih q hq htr
  | train st name dir epochs avail prep preprocessOk semR phonR s1subOk s1fs
      wavP cnhP n2tA s2subOk s2fs hr ih =>
    intro q hq htr
    rcases train_speaker_state_speakers st name epochs avail
        (train_speaker_complete name prep preprocessOk semR phonR s1subOk s1fs
          wavP cnhP n2tA s2subOk s2fs) dir with hsame | ⟨sp, info, hlk, hok, hupd⟩
    · rw [hsame] at hq
      exact ih q hq htr
    · rw [hupd] at hq
      rcases mem_setA _ _ _ _ hq with hq | hq
      · obtain ⟨hcomp, hinfo⟩ := train_with_sovits_complete_ok _ _ _ hok
        obtain ⟨g, s, hg, hs, hgne, hsne⟩ :=
          train_speaker_complete_completed_models name prep preprocessOk semR
            phonR s1subOk s1fs wavP cnhP n2tA s2subOk s2fs hcomp
        refine ⟨info, g, s, ?_, ?_, ?_, hgne, hsne⟩
        · rw [hq]
        · rw [hinfo]
          exact hg
        · rw [hinfo]
          exact hs
      · exact ih q hq htr
  | delete st name hr ih =>
    intro q hq htr
    cases hlk : lookupA st.speakers name with
    | none =>
      have hsp : (delete_speaker st name).speakers = st.speakers := by
        simp [delete_speaker, hlk]
      rw [hsp] at hq
      exact ih q hq htr
    | some sp =>
      have hsp : (delete_speaker st name).speakers = removeA st.speakers name := by
        simp [delete_speaker, hlk]
      rw [hsp] at hq
      exact ih q (mem_removeA _ _ _ hq) htr

/-- C4: in every reachable store state a trained speaker carries a model-info
record with both artifact paths present and non-empty; and each recorded path
was produced by the stage search, i.e. it names a file present in the stage's
directory listing at the moment the completed training located it (or, for
stage 2, the conversion output written at that moment). -/
theorem C4_trained_implies_artifact_paths (st : GenState) (h : Reachable st) :
    (∀ name sp, lookupA st.speakers name = some sp → sp.trained = true →
      ∃ mi g s, sp.model_info = some mi ∧ mi.gpt_model = some g ∧
        mi.sovits_model = some s ∧ g ≠ "" ∧ s ≠ "") ∧
    (∀ logsDir fs p, train_stage1_findModel logsDir fs = some p →
      ∃ f, f ∈ fs.files ∧ f.endsWith ".ckpt" = true ∧ p = logsDir ++ "/" ++ f) ∧
    (∀ wavP cnhP n2tA s2subOk logsDir speaker fs p,
      train_stage2_sovits wavP cnhP n2tA s2subOk logsDir speaker fs
          = .ok (some p) →
      (∃ f, f ∈ fs.files ∧ p = logsDir ++ "/" ++ f) ∨
        (fs.conversionOk = true ∧
          p = logsDir ++ "/" ++ convertedWeightName speaker fs.convEpoch)) := by
  refine ⟨?_, train_stage1_findModel_spec, train_stage2_sovits_spec⟩
  intro name sp hlk htr
  exact reachable_entries_invariant st h (name, sp) (lookupA_mem _ _ _ hlk) htr

/-- States of a concrete run for the C4 witness: three uploads for "alice"
followed by one fully successful training run. -/
def c4s1 : GenState := uploadOp ⟨[], []⟩ "alice" "d1" "o1" 44100 4

def c4s2 : GenState := uploadOp c4s1 "alice" "d2" "o2" 32000 9

def c4s3 : GenState := uploadOp c4s2 "alice" "d3" "o3" 32000 9

def c4final : GenState :=
  (train_speaker c4s3 "alice" 8 true
    (train_speaker_complete "alice" (.ok "exp") true 3 3 true c1s1fs
      true true true true c2s2fs) "m").state

/-- C4 witness: the invariant theorem applied to the reachable state
`c4final` in which "alice" is trained. -/
theorem C4_witness :
    Reachable c4final ∧
    ((∀ name sp, lookupA c4final.speakers name = some sp → sp.trained = true →
        ∃ mi g s, sp.model_info = some mi ∧ mi.gpt_model = some g ∧
          mi.sovits_model = some s ∧ g ≠ "" ∧ s ≠ "") ∧
      (∀ logsDir fs p, train_stage1_findModel logsDir fs = some p →
        ∃ f, f ∈ fs.files ∧ f.endsWith ".ckpt" = true ∧ p = logsDir ++ "/" ++ f) ∧
      (∀ wavP cnhP n2tA s2subOk logsDir speaker fs p,
        train_stage2_sovits wavP cnhP n2tA s2subOk logsDir speaker fs
            = .ok (some p) →
        (∃ f, f ∈ fs.files ∧ p = logsDir ++ "/" ++ f) ∨
          (fs.conversionOk = true ∧
            p = logsDir ++ "/" ++ convertedWeightName speaker fs.convEpoch))) := by
  have hreach : Reachable c4final :=
    Reachable.train c4s3 "alice" "m" 8 true (.ok "exp") true 3 3 true c1s1fs
      true true true true c2s2fs
      (Reachable.upload c4s2 "alice" "d3" "o3" 32000 9
        (Reachable.upload c4s1 "alice" "d2" "o2" 32000 9
          (Reachable.upload ⟨[], []⟩ "alice" "d1" "o1" 44100 4 Reachable.init)))
  exact ⟨hreach, C4_trained_implies_artifact_paths c4final hreach⟩

example : (lookupA c4final.speakers "alice").map (fun sp => sp.trained)
    = some true := by with_unfolding_all rfl

/-! ## C5 — what the start of a training run actually purges -/

/-- `f"{i:04d}"`. -/
def pad4 (i : ℕ) : String :=
  if i < 10 then "000" ++ toString i
  else if i < 100 then "00" ++ toString i
  else if i < 1000 then "0" ++ toString i
  else toString i

/-- The canonical staged name `f"{speaker_name}_{i:04d}{ext}"`
(`prepare_training_data`, line 102). -/
def stagedName (speaker : String) (i : ℕ) (ext : String) : String :=
  speaker ++ "_" ++ pad4 i ++ ext

/-- A source audio file as seen by `prepare_training_data`: its path (only
used through existence), whether it exists on disk, and its extension. -/
structure SourceAudioFile where
  path : String
  onDisk : Bool
  ext : String
deriving Repr, DecidableEq

/-- Contents of the experiment directory relevant to purging: staged wav
names under `input_wavs/`, the first line of `input_text.txt` when present,
and the names of feature directories, checkpoint directories and old manifest
files that exist. -/
structure ExpDirFs where
  stagedWavs : List String
  inputText : Option String
  featureDirs : List String
  checkpointDirs : List String
  manifestFiles : List String
deriving Repr, DecidableEq

/-- `shutil.copy2` into `input_wavs/` under the canonical name: overwrites an
existing file of the same name, creates it otherwise; nothing is deleted. -/
def upsert (l : List String) (x : String) : List String :=
  if x ∈ l then l else l ++ [x]

/-- The copy loop of `prepare_training_data` (lines 94-107): enumerate the
audio list, skip entries whose source file is missing (the index still
advances), copy the rest under the canonical staged name. -/
def copyStagedFiles (speaker : String) (files : List SourceAudioFile)
    (staged : List String) : List String :=
  (files.enum).foldl
    (fun acc p => if p.2.onDisk then upsert acc (stagedName speaker p.1 p.2.ext)
      else acc) staged

/-- The reuse check of `prepare_training_data` (lines 113-120): an existing
`input_text.txt` is kept when its first line does not contain the placeholder
"这是一段训练语音" and is longer than 50 characters after stripping. -/
def existingTextIsValid (firstLine : String) : Bool :=
  !strContains firstLine "这是一段训练语音" && decide (50 < firstLine.trim.length)

/-- Filesystem effect of `prepare_training_data` (lines 83-184): the
experiment directory is created with `exist_ok=True` (never purged), audio is
copied in, and a valid existing transcript file is reused unchanged (early
return); otherwise a new transcript file is written. -/
def prepare_training_data_fs (speaker : String) (files : List SourceAudioFile)
    (newText : String) (prior : ExpDirFs) : ExpDirFs :=
  let staged := copyStagedFiles speaker files prior.stagedWavs
  match prior.inputText with
  | some firstLine =>
    if existingTextIsValid firstLine then { prior with stagedWavs := staged }
    else { prior with stagedWavs := staged, inputText := some newText }
  | none => { prior with stagedWavs := staged, inputText := some newText }

/-- The directories purged by `run_data_preprocessing` (line 200). -/
def preprocessPurgeDirs : List String :=
  ["2-name2text", "3-bert", "4-cnhubert", "5-wav32k", "6-name2semantic"]

/-- The checkpoint directories purged by `run_data_preprocessing` (line 207). -/
def preprocessPurgeCkpts : List String := ["logs_s1/ckpt", "logs_s2_v2"]

/-- The stale manifest files removed by `run_data_preprocessing` (line 214). -/
def preprocessPurgeFiles : List String := ["2-name2text-0.txt", "6-name2semantic-0.tsv"]

/-- Filesystem effect of the purge at the start of `run_data_preprocessing`
(lines 199-218): feature directories, checkpoint directories and old manifest
files are removed; the staged audio and the transcript file are not touched. -/
def run_data_preprocessing_purge (d : ExpDirFs) : ExpDirFs :=
  { d with
    featureDirs := d.featureDirs.filter (fun x => !preprocessPurgeDirs.contains x),
    checkpointDirs := d.checkpointDirs.filter (fun x => !preprocessPurgeCkpts.contains x),
    manifestFiles := d.manifestFiles.filter (fun x => !preprocessPurgeFiles.contains x) }

theorem mem_upsert (l : List String) (x w : String) (h : w ∈ l) : w ∈ upsert l x := by
  unfold upsert
  split
  · exact h
  · exact List.mem_append_left _ h

theorem mem_copyStagedFiles (speaker : String) (files : List SourceAudioFile)
    (staged : List String) (w : String) (h : w ∈ staged) :
    w ∈ copyStagedFiles speaker files staged := by
  unfold copyStagedFiles
  generalize files.enum = l
  induction l generalizing staged with
  | nil => exact h
  | cons p t ih =>
    rw [List.foldl_cons]
    by_cases hp : p.2.onDisk = true
    · rw [if_pos hp]
      exact ih _ (mem_upsert _ _ _ h)
    · rw [if_neg hp]
      exact ih _ h

/-- Prior experiment directory for the C5 counterexample: six staged wavs and
a valid transcript file from an earlier 6-sample attempt, plus leftover
feature/checkpoint artifacts. -/
def c5prior : ExpDirFs :=
  { stagedWavs := ["a_0000.wav", "a_0001.wav", "a_0002.wav",
      "a_0003.wav", "a_0004.wav", "a_0005.wav"],
    inputText := some "abcdefghijklmnopqrstuvwxyzabcdefghijklmnopqrstuvwxyz",
    featureDirs := ["4-cnhubert"],
    checkpointDirs := ["logs_s2_v2"],
    manifestFiles := ["6-name2semantic-0.tsv"] }

/-- The new (smaller) upload set for the C5 counterexample: three files. -/
def c5files : List SourceAudioFile :=
  [⟨"u1.wav", true, ".wav"⟩, ⟨"u2.wav", true, ".wav"⟩, ⟨"u3.wav", true, ".wav"⟩]

/-- C5 counterexample: running data preparation and the preprocessing purge
for a 3-file attempt over `c5prior` leaves the prior attempt's staged audio
`a_0005.wav` in place and reuses the prior transcript file verbatim — the
experiment directory is NOT recreated with its previous contents purged. -/
theorem C5_counterexample_stale_staging_survives :
    (run_data_preprocessing_purge
        (prepare_training_data_fs "a" c5files "NEW" c5prior)).stagedWavs
      = ["a_0000.wav", "a_0001.wav", "a_0002.wav",
          "a_0003.wav", "a_0004.wav", "a_0005.wav"] ∧
    "a_0005.wav" ∈ (run_data_preprocessing_purge
        (prepare_training_data_fs "a" c5files "NEW" c5prior)).stagedWavs ∧
    (run_data_preprocessing_purge
        (prepare_training_data_fs "a" c5files "NEW" c5prior)).inputText
      = some "abcdefghijklmnopqrstuvwxyzabcdefghijklmnopqrstuvwxyz" ∧
    ("abcdefghijklmnopqrstuvwxyzabcdefghijklmnopqrstuvwxyz" : String) ≠ "NEW" := by
  have h1 : (run_data_preprocessing_purge
      (prepare_training_data_fs "a" c5files "NEW" c5prior)).stagedWavs
      = ["a_0000.wav", "a_0001.wav", "a_0002.wav",
          "a_0003.wav", "a_0004.wav", "a_0005.wav"] := by
    with_unfolding_all rfl
  refine ⟨h1, ?_, by with_unfolding_all rfl, by decide⟩
  rw [h1]
  simp

/-- C5 (amended): at the start of a run the preprocessing purge removes
exactly the intermediate feature directories, checkpoint directories and
stale manifest files; staged audio from any prior attempt survives data
preparation, and a valid prior transcript file is deliberately reused. -/
theorem C5_purge_scope_and_survivors (speaker newText : String)
    (files : List SourceAudioFile) (prior : ExpDirFs) :
    (∀ x ∈ (run_data_preprocessing_purge
        (prepare_training_data_fs speaker files newText prior)).featureDirs,
      x ∉ preprocessPurgeDirs) ∧
    (∀ x ∈ (run_data_preprocessing_purge
        (prepare_training_data_fs speaker files newText prior)).checkpointDirs,
      x ∉ preprocessPurgeCkpts) ∧
    (∀ x ∈ (run_data_preprocessing_purge
        (prepare_training_data_fs speaker files newText prior)).manifestFiles,
      x ∉ preprocessPurgeFiles) ∧
    (∀ w ∈ prior.stagedWavs, w ∈ (run_data_preprocessing_purge
        (prepare_training_data_fs speaker files newText prior)).stagedWavs) ∧
    (∀ c, prior.inputText = some c → existingTextIsValid c = true →
      (run_data_preprocessing_purge
        (prepare_training_data_fs speaker files newText prior)).inputText
        = some c) := by
  have hshape : ∀ d : ExpDirFs,
      (run_data_preprocessing_purge d).featureDirs
          = d.featureDirs.filter (fun x => !preprocessPurgeDirs.contains x) ∧
      (run_data_preprocessing_purge d).checkpointDirs
          = d.checkpointDirs.filter (fun x => !preprocessPurgeCkpts.contains x) ∧
      (run_data_preprocessing_purge d).manifestFiles
          = d.manifestFiles.filter (fun x => !preprocessPurgeFiles.contains x) ∧
      (run_data_preprocessing_purge d).stagedWavs = d.stagedWavs ∧
      (run_data_preprocessing_purge d).inputText = d.inputText := by
    intro d
    exact ⟨rfl, rfl, rfl, rfl, rfl⟩
  obtain ⟨hf, hc, hm, hw, ht⟩ := hshape (prepare_training_data_fs speaker files newText prior)
  refine ⟨?_, ?_, ?_, ?_, ?_⟩
  · intro x hx
    rw [hf] at hx
    have := (List.mem_filter.mp hx).2
    simpa using this
  · intro x hx
    rw [hc] at hx
    have := (List.mem_filter.mp hx).2
    simpa using this
  · intro x hx
    rw [hm] at hx
    have := (List.mem_filter.mp hx).2
    simpa using this
  · intro w hwmem
    rw [hw]
    unfold prepare_training_data_fs
    cases prior.inputText with
    | none => exact mem_copyStagedFiles _ _ _ _ hwmem
    | some firstLine =>
      by_cases hv : existingTextIsValid firstLine = true <;>
        simp [hv, mem_copyStagedFiles _ _ _ _ hwmem]
  · intro c hch hcv
    rw [ht]
    unfold prepare_training_data_fs
    rw [hch]
    simp [hcv]

/-- C5 witness: the purge-scope theorem applied at the counterexample data. -/
theorem C5_witness :
    (∀ x ∈ (run_data_preprocessing_purge
        (prepare_training_data_fs "a" c5files "NEW" c5prior)).featureDirs,
      x ∉ preprocessPurgeDirs) ∧
    (∀ x ∈ (run_data_preprocessing_purge
        (prepare_training_data_fs "a" c5files "NEW" c5prior)).checkpointDirs,
      x ∉ preprocessPurgeCkpts) ∧
    (∀ x ∈ (run_data_preprocessing_purge
        (prepare_training_data_fs "a" c5files "NEW" c5prior)).manifestFiles,
      x ∉ preprocessPurgeFiles) ∧
    (∀ w ∈ c5prior.stagedWavs, w ∈ (run_data_preprocessing_purge
        (prepare_training_data_fs "a" c5files "NEW" c5prior)).stagedWavs) ∧
    (∀ c, c5prior.inputText = some c → existingTextIsValid c = true →
      (run_data_preprocessing_purge
        (prepare_training_data_fs "a" c5files "NEW" c5prior)).inputText
        = some c) :=
  C5_purge_scope_and_survivors "a" "NEW" c5files c5prior

/-! ## C9 — the degraded placeholder path of `generate_speech` -/

/-- The v2 language-code mapping of `generate_speech` (lines 388-396):
`language_mapping.get(language.lower(), language)` — note that an unmapped
code falls back to the ORIGINAL (uncased) string.  Python `str.lower()` is
modelled per character (the codes involved are ASCII). -/
def normalizeLanguage (language : String) : String :=
  let l := language.map Char.toLower
  if l = "zh-cn" then "zh"
  else if l = "zh-tw" then "zh"
  else if l = "en-us" then "en"
  else if l = "en-gb" then "en"
  else if l = "ja-jp" then "ja"
  else if l = "ko-kr" then "ko"
  else language

/-- Python `text.split()`: split on whitespace runs, dropping empties. -/
def pyWords (text : String) : List String :=
  (text.split (fun c => c.isWhitespace)).filter (fun w => w ≠ "")

/-- The text-length duration estimate of `_generate_placeholder`
(lines 525-528): characters × 0.3 for a zh-prefixed language, words × 0.2
otherwise. -/
def estimated_duration (text lang : String) : ℚ :=
  if lang.startsWith "zh" then (text.length : ℚ) * (3 / 10)
  else ((pyWords text).length : ℚ) * (1 / 5)

/-- `duration = max(1.0, min(estimated_duration, 30.0))` (line 530). -/
def placeholder_duration (text lang : String) : ℚ :=
  pymax 1 (pymin (estimated_duration text lang) 30)

/-- `np.zeros(int(duration * sr))` with `sr = 32000` (lines 531-534). -/
def placeholderSampleCount (text lang : String) : ℕ :=
  (placeholder_duration text lang * 32000).floor.toNat

/-- What `generate_speech` leaves in the output file: a silent clip of a
given sample count and rate (placeholder path) or bytes returned by the
inference service. -/
inductive WrittenAudio where
  | silence (samples : ℕ) (sr : ℤ)
  | synthesized
deriving Repr, DecidableEq

/-- The exceptions of `generate_speech`: the unwrapped not-trained error
(lines 404-408) and the wrapped "语音合成失败" re-raise (line 437) whose inner
cause is the incomplete model-path check (line 453), a reference-selection
failure (lines 584, 596), or a failed inference call (lines 486, 517). -/
inductive GenInnerError where
  | modelPathsIncomplete
  | referenceSelection (e : SelectError)
  | apiGenerationFailed
deriving Repr, DecidableEq

inductive GenFailure where
  | notTrained
  | synthesisFailed (inner : GenInnerError)
deriving Repr, DecidableEq

/-- `generate_speech` (lines 375-437) for a looked-up speaker record, paired
with what gets written to the output file.  The branch structure of lines
419-430: the trained-model path needs `method == "gpt_sovits_trained"` AND a
reachable API; otherwise a reachable API uses the pretrained+reference path;
otherwise `_generate_placeholder` writes a silent clip and the function
returns the output path exactly as in the successful cases — no field of the
return value distinguishes the degraded mode. -/
def generate_speech_full (sp : SpeakerRecord) (text language outputPath : String)
    (apiAvailable apiOk : Bool) :
    Except GenFailure String × Option WrittenAudio :=
  let lang := normalizeLanguage language
  if sp.trained = false then (.error .notTrained, none)
  else
    let isTrainedMethod : Bool :=
      match sp.model_info with
      | some mi => mi.method = "gpt_sovits_trained"
      | none => false
    if isTrainedMethod && apiAvailable then
      match sp.model_info with
      | some mi =>
        match mi.gpt_model, mi.sovits_model with
        | some g, some s =>
          if g = "" || s = "" then
            (.error (.synthesisFailed .modelPathsIncomplete), none)
          else
            match select_best_reference_audio sp.audio_files with
            | .error e => (.error (.synthesisFailed (.referenceSelection e)), none)
            | .ok _ =>
              if apiOk then (.ok outputPath, some .synthesized)
              else (.error (.synthesisFailed .apiGenerationFailed), none)
        | _, _ => (.error (.synthesisFailed .modelPathsIncomplete), none)
      | none => (.error (.synthesisFailed .modelPathsIncomplete), none)
    else if apiAvailable then
      match select_best_reference_audio sp.audio_files with
      | .error e => (.error (.synthesisFailed (.referenceSelection e)), none)
      | .ok _ =>
        if apiOk then (.ok outputPath, some .synthesized)
        else (.error (.synthesisFailed .apiGenerationFailed), none)
    else
      (.ok outputPath, some (.silence (placeholderSampleCount text lang) 32000))

/-- Trained speaker record for the C9 counterexample. -/
def c9sp : SpeakerRecord :=
  ⟨[⟨"p", "o", 5, 32000⟩], true,
    some ⟨"m", some "g.ckpt", some "s.pth", "gpt_sovits_trained"⟩⟩

/-- C9 counterexample: with the inference service unreachable the call writes
a silent placeholder, yet the response handed to the caller is exactly the
same success value (the bare output path) as a real synthesis — nothing tags
it as degraded, so it CAN be mistaken for a real result. -/
theorem C9_counterexample_untagged_response :
    (generate_speech_full c9sp "你好世界" "zh-cn" "outputs/x.wav" false false).1
      = .ok "outputs/x.wav" ∧
    (generate_speech_full c9sp "你好世界" "zh-cn" "outputs/x.wav" true true).1
      = .ok "outputs/x.wav" ∧
    (generate_speech_full c9sp "你好世界" "zh-cn" "outputs/x.wav" false false).1
      = (generate_speech_full c9sp "你好世界" "zh-cn" "outputs/x.wav" true true).1 ∧
    (generate_speech_full c9sp "你好世界" "zh-cn" "outputs/x.wav" false false).2
      = some (.silence 38400 32000) ∧
    (generate_speech_full c9sp "你好世界" "zh-cn" "outputs/x.wav" true true).2
      = some .synthesized ∧
    some (WrittenAudio.silence 38400 32000) ≠ some WrittenAudio.synthesized := by
  refine ⟨?_, ?_, ?_, ?_, ?_, by decide⟩ <;> with_unfolding_all rfl

/-- C9 (amended): with the service unreachable, generation produces the
placeholder silent clip of the text-length estimate clamped to [1, 30]
seconds, but the response is NOT tagged as degraded: it is the same plain
output path that a successful real synthesis returns. -/
theorem C9_placeholder_duration_untagged (sp : SpeakerRecord)
    (text language outputPath : String) (htr : sp.trained = true) :
    (generate_speech_full sp text language outputPath false false).1
      = .ok outputPath ∧
    (generate_speech_full sp text language outputPath false false).2
      = some (.silence (placeholderSampleCount text (normalizeLanguage language)) 32000) ∧
    placeholder_duration text (normalizeLanguage language)
      = pymax 1 (pymin (estimated_duration text (normalizeLanguage language)) 30) ∧
    1 ≤ placeholder_duration text (normalizeLanguage language) ∧
    placeholder_duration text (normalizeLanguage language) ≤ 30 ∧
    (∀ apiOk : Bool,
      (generate_speech_full sp text language outputPath true apiOk).1
          = .ok outputPath →
      (generate_speech_full sp text language outputPath false false).1
        = (generate_speech_full sp text language outputPath true apiOk).1) := by
  have htr' : sp.trained ≠ false := by
    rw [htr]
    simp
  have hplaceholder :
      generate_speech_full sp text language outputPath false false
        = (.ok outputPath,
            some (.silence (placeholderSampleCount text (normalizeLanguage language))
              32000)) := by
    unfold generate_speech_full
    rw [if_neg htr']
    simp
  refine ⟨by rw [hplaceholder], by rw [hplaceholder], rfl, ?_, ?_, ?_⟩
  · rw [placeholder_duration, pymax_eq_max]
    exact le_max_left _ _
  · rw [placeholder_duration, pymax_eq_max, pymin_eq_min]
    exact max_le (by norm_num) (min_le_right _ _)
  · intro apiOk hok
    rw [hok]
    rw [hplaceholder]

/-- C9 witness: the amended theorem applied at `c9sp`. -/
theorem C9_witness :
    c9sp.trained = true ∧
    ((generate_speech_full c9sp "你好世界" "zh-cn" "out.wav" false false).1
        = .ok "out.wav" ∧
      (generate_speech_full c9sp "你好世界" "zh-cn" "out.wav" false false).2
        = some (.silence
            (placeholderSampleCount "你好世界" (normalizeLanguage "zh-cn")) 32000) ∧
      placeholder_duration "你好世界" (normalizeLanguage "zh-cn")
        = pymax 1 (pymin (estimated_duration "你好世界" (normalizeLanguage "zh-cn")) 30) ∧
      1 ≤ placeholder_duration "你好世界" (normalizeLanguage "zh-cn") ∧
      placeholder_duration "你好世界" (normalizeLanguage "zh-cn") ≤ 30 ∧
      (∀ apiOk : Bool,
        (generate_speech_full c9sp "你好世界" "zh-cn" "out.wav" true apiOk).1
            = .ok "out.wav" →
        (generate_speech_full c9sp "你好世界" "zh-cn" "out.wav" false false).1
          = (generate_speech_full c9sp "你好世界" "zh-cn" "out.wav" true apiOk).1)) :=
  ⟨rfl, C9_placeholder_duration_untagged c9sp "你好世界" "zh-cn" "out.wav" rfl⟩
